import Mathlib

set_option allowUnsafeReducibility true in
attribute [semireducible] Rat.add Rat.sub Rat.neg Rat.mul Rat.div Rat.inv Rat.floor Rat.ceil

/-!
Verification of the defect-augmentation engine of `gunpowder`
(`gunpowder/nodes/defect_augment.py`, with `gunpowder/volume_spec.py`).

The Python code is shallowly embedded: numpy arrays become explicit
shapes plus total value functions over `ℚ`, the stateful
`prepare`/`process` pair becomes explicit state passing, and fallible
steps (Python `assert`, numpy broadcasting errors, `np.random.randint`
on an empty range, dict `KeyError`) return `Except`.

External collaborators that are not part of this repository are
modelled from their documented contracts:
* the region-of-interest / coordinate arithmetic library
  (`Roi.div`, `Roi.grow`): modelled from the spec, which describes a
  ROI as an axis-aligned box that can be divided by a voxel size and
  grown symmetrically;
* `np.random.randint(low, high)`: uniform on the half-open integer
  range `[low, high)`;
* the floating-point vector normalisation `v / np.linalg.norm(v)`:
  taken as a parameter `normed` of the flow-field generator (its value
  is irrational in general); every theorem quantifies over it;
* the interior spline evaluation of `scipy.ndimage.map_coordinates`
  for orders `≥ 1`: taken as a parameter `kernel`; order 0 (nearest
  neighbour, used when the volume is not interpolatable) and the
  `mode='constant'` out-of-bounds fill are modelled concretely.
-/

/-- Numpy dtypes that appear in the assertions of `process`. -/
inductive Dtype where
  | uint8
  | float32
  | float64
  | other (s : String)
deriving DecidableEq, Repr

/-- Modelled from the spec: a region of interest is an axis-aligned box in
world coordinates, stored as an offset and a shape per axis
(`gunpowder` `Roi`; the coordinate library itself is outside this
repository's sources). -/
structure Roi where
  offset : List ℤ
  shape : List ℤ
deriving DecidableEq, Repr

/-- Number of dimensions of a ROI (`roi.dims()`). -/
def Roi.dims (r : Roi) : ℕ := r.shape.length

/-- Modelled from the spec: dividing a ROI by a voxel size converts world
units to voxel units, axis by axis, with Python floor division
(`roi / raw_voxel_size`). -/
def Roi.div (r : Roi) (v : List ℤ) : Roi :=
  { offset := (List.zip r.offset v).map (fun p => Int.fdiv p.1 p.2),
    shape := (List.zip r.shape v).map (fun p => Int.fdiv p.1 p.2) }

/-- Modelled from the spec: `roi.grow(g, g)` moves the offset back by `g`
and enlarges the shape by `2 * g`, i.e. the box grows symmetrically
before and after on every axis. -/
def Roi.grow (r : Roi) (g : List ℤ) : Roi :=
  { offset := (List.zip r.offset g).map (fun p => p.1 - p.2),
    shape := (List.zip r.shape g).map (fun p => p.1 + 2 * p.2) }

/-- The volume identifiers used by the node (`VolumeTypes.RAW`,
`VolumeTypes.ALPHA_MASK`, and arbitrary further volume types carried by
a request). -/
inductive VolId where
  | RAW
  | ALPHA_MASK
  | other (n : ℕ)
deriving DecidableEq, Repr

/-- A batch request maps volume identifiers to requested ROIs
(`request[volume_type].roi`). -/
def Request : Type := VolId → Option Roi

/-- Meta information about a volume (`gunpowder/volume_spec.py`). -/
structure VolumeSpec where
  roi : Option Roi
  voxel_size : Option (List ℤ)
  interpolatable : Option Bool
  dtype : Option Dtype
deriving DecidableEq, Repr

/-- Construction-time configuration of `DefectAugment.__init__` together
with the upstream-provider facts the node reads from `self.spec`
(`voxel_size` and `interpolatable` of `VolumeTypes.RAW`, and the
artifact source's `ALPHA_MASK` voxel size). -/
structure Config where
  prob_missing : ℚ
  prob_low_contrast : ℚ
  prob_artifact : ℚ
  prob_deform : ℚ
  contrast_scale : ℚ
  deformation_strength : ℕ
  axis : ℕ
  interpolatable : Bool
  rawVoxelSize : List ℤ
  alphaVoxelSize : List ℤ

/-! ### Slice plan builder (`DefectAugment.prepare`, lines 84-119) -/

/-- Classification of one slice from a single uniform draw `r`, via the
cumulative thresholds of `prepare`:
`t1 = prob_missing`, `t2 = t1 + prob_low_contrast`,
`t3 = t2 + prob_artifact`, `t4 = t3 + prob_deform`.
Note the planned tag for a low-contrast slice is the string
`"lower_contrast"` (line 107 of the source). -/
def classifySlice (pm pl pa pd : ℚ) (r : ℚ) : Option String :=
  if r < pm then some "zero_out"
  else if r < pm + pl then some "lower_contrast"
  else if r < pm + pl + pa then some "artifact"
  else if r < pm + pl + pa + pd then some "deformed_slice"
  else none

/-- The number of sections along the cut axis:
`(roi / raw_voxel_size).get_shape()[axis]`. -/
def numSections (roi : Roi) (vs : List ℤ) (axis : ℕ) : ℕ :=
  ((roi.div vs).shape.getD axis 0).toNat

/-- The mapping from slice index to augmentation tag built by `prepare`
(`self.slice_to_augmentation`), as an association list in slice order;
`draws c` is the value of `random.random()` for slice `c`. -/
def buildPlan (pm pl pa pd : ℚ) (draws : ℕ → ℚ) (N : ℕ) : List (ℕ × String) :=
  (List.range N).filterMap (fun c => (classifySlice pm pl pa pd (draws c)).map (fun t => (c, t)))

/-! ### Request expander (`DefectAugment.prepare`, lines 123-138) -/

/-- The growth coordinate: `0` on the cut axis and
`raw_voxel_size[d] * deformation_strength` on every other axis
(line 129-131 of the source). -/
def growthVec (axis : ℕ) (vs : List ℤ) (strength : ℕ) (dims : ℕ) : List ℤ :=
  (List.range dims).map (fun d => if d = axis then 0 else vs.getD d 0 * (strength : ℤ))

/-- `True` when the plan contains at least one deformed slice
(`'deformed_slice' in self.slice_to_augmentation.values()`). -/
def planHasDeform (plan : List (ℕ × String)) : Bool :=
  plan.any (fun p => p.2 = "deformed_slice")

/-- The outgoing upstream request after `prepare`: if the plan contains a
deformed slice the RAW entry's ROI is grown by `growthVec`
symmetrically (`roi.grow(growth, growth)`), all other entries are left
untouched; otherwise the request passes through unchanged. -/
def expandedRequest (axis : ℕ) (vs : List ℤ) (strength : ℕ)
    (plan : List (ℕ × String)) (req : Request) : Request :=
  if planHasDeform plan then
    match req VolId.RAW with
    | some roi =>
        fun id => if id = VolId.RAW
          then some (roi.grow (growthVec axis vs strength roi.dims))
          else req id
    | none => req
  else req

/-! ### Helper lemmas about plan lookup -/

theorem keysOfTagged_sublist (g : ℕ → Option String) (l : List ℕ) :
    ((l.filterMap (fun a => (g a).map (fun t => (a, t)))).map Prod.fst).Sublist l := by
  induction l with
  | nil => simp
  | cons a t ih =>
      simp only [List.filterMap_cons]
      cases g a with
      | none => exact ih.cons a
      | some v => simpa using ih.cons₂ a

theorem keysOfTagged_mem (g : ℕ → Option String) (l : List ℕ)
    (p : ℕ × String) (hp : p ∈ l.filterMap (fun a => (g a).map (fun t => (a, t)))) :
    p.1 ∈ l := by
  have : p.1 ∈ (l.filterMap (fun a => (g a).map (fun t => (a, t)))).map Prod.fst :=
    List.mem_map.mpr ⟨p, hp, rfl⟩
  exact (keysOfTagged_sublist g l).mem this

theorem lookupTagged_not_mem (g : ℕ → Option String) (l : List ℕ) (c : ℕ) (hc : c ∉ l) :
    (l.filterMap (fun a => (g a).map (fun t => (a, t)))).lookup c = none := by
  induction l with
  | nil => simp [List.lookup]
  | cons a t ih =>
      have hca : ¬ c = a := fun e => hc (e ▸ List.mem_cons_self a t)
      have hct : c ∉ t := fun h => hc (List.mem_cons_of_mem a h)
      simp only [List.filterMap_cons]
      cases g a with
      | none => exact ih hct
      | some v =>
          have hb : (c == a) = false := by simpa using hca
          simp [List.lookup, hb, ih hct]

theorem lookupTagged_mem (g : ℕ → Option String) (l : List ℕ) (hl : l.Nodup)
    (c : ℕ) (hc : c ∈ l) :
    (l.filterMap (fun a => (g a).map (fun t => (a, t)))).lookup c = g c := by
  induction l with
  | nil => simp at hc
  | cons a t ih =>
      simp only [List.filterMap_cons]
      by_cases hca : c = a
      · subst hca
        have hct : c ∉ t := (List.nodup_cons.mp hl).1
        cases hg : g c with
        | none => simpa [hg] using lookupTagged_not_mem g t c hct
        | some v =>
            have hb : (c == c) = true := by simp
            simp [List.lookup, hb, hg]
      · have hct : c ∈ t := by
          rcases List.mem_cons.mp hc with h | h
          · exact absurd h hca
          · exact h
        have ht : t.Nodup := (List.nodup_cons.mp hl).2
        cases hg : g a with
        | none => exact ih ht hct
        | some v =>
            have hb : (c == a) = false := by simpa using hca
            simp only [List.lookup, hb]
            exact ih ht hct

theorem buildPlan_keys_lt (pm pl pa pd : ℚ) (draws : ℕ → ℚ) (N : ℕ) :
    ∀ p ∈ buildPlan pm pl pa pd draws N, p.1 < N := by
  intro p hp
  exact List.mem_range.mp
    (keysOfTagged_mem (fun c => classifySlice pm pl pa pd (draws c)) (List.range N) p hp)

theorem buildPlan_lookup (pm pl pa pd : ℚ) (draws : ℕ → ℚ) (N : ℕ) (c : ℕ) (hc : c < N) :
    (buildPlan pm pl pa pd draws N).lookup c = classifySlice pm pl pa pd (draws c) :=
  lookupTagged_mem (fun c => classifySlice pm pl pa pd (draws c)) (List.range N)
    (List.nodup_range N) c (List.mem_range.mpr hc)

theorem buildPlan_keys_nodup (pm pl pa pd : ℚ) (draws : ℕ → ℚ) (N : ℕ) :
    ((buildPlan pm pl pa pd draws N).map Prod.fst).Nodup :=
  (List.nodup_range N).sublist
    (keysOfTagged_sublist (fun c => classifySlice pm pl pa pd (draws c)) (List.range N))

theorem classifySlice_spec (pm pl pa pd r : ℚ)
    (h0l : 0 ≤ pl) (h0a : 0 ≤ pa) (h0d : 0 ≤ pd) :
    (classifySlice pm pl pa pd r = some "zero_out" ↔ r < pm) ∧
    (classifySlice pm pl pa pd r = some "lower_contrast" ↔ pm ≤ r ∧ r < pm + pl) ∧
    (classifySlice pm pl pa pd r = some "artifact" ↔ pm + pl ≤ r ∧ r < pm + pl + pa) ∧
    (classifySlice pm pl pa pd r = some "deformed_slice" ↔
      pm + pl + pa ≤ r ∧ r < pm + pl + pa + pd) ∧
    (classifySlice pm pl pa pd r = none ↔ pm + pl + pa + pd ≤ r) := by
  unfold classifySlice
  split_ifs with h1 h2 h3 h4 <;>
    refine ⟨?_, ?_, ?_, ?_, ?_⟩ <;>
      first
        | exact iff_of_true rfl (by linarith)
        | exact iff_of_true rfl ⟨by linarith, by linarith⟩
        | exact iff_of_false (by decide) (by intro hc; linarith)

/-! ### C3: the slice plan builder -/

/-- C3: for every requested ROI, voxel size and probabilities with sum at
most 1, the plan assigns to each slice index in `[0, N)` (with `N` the
ROI extent along the cut axis divided by the voxel size there) at most
one augmentation tag, the one obtained from that slice's single
uniform draw classified against the cumulative thresholds
`t1 = p_missing`, `t2 = t1 + p_low_contrast`, `t3 = t2 + p_artifact`,
`t4 = t3 + p_deform`, with no augmentation exactly when the draw is at
least `t4`. -/
theorem C3_slice_plan_builder (pm pl pa pd : ℚ) (draws : ℕ → ℚ)
    (roi : Roi) (vs : List ℤ) (axis : ℕ)
    (hsum : pm + pl + pa + pd ≤ 1)
    (h0m : 0 ≤ pm) (h0l : 0 ≤ pl) (h0a : 0 ≤ pa) (h0d : 0 ≤ pd) :
    let N := numSections roi vs axis
    let plan := buildPlan pm pl pa pd draws N
    (∀ p ∈ plan, p.1 < N) ∧
    (plan.map Prod.fst).Nodup ∧
    (∀ c, c < N → plan.lookup c = classifySlice pm pl pa pd (draws c)) ∧
    (∀ r : ℚ,
      (classifySlice pm pl pa pd r = some "zero_out" ↔ r < pm) ∧
      (classifySlice pm pl pa pd r = some "lower_contrast" ↔ pm ≤ r ∧ r < pm + pl) ∧
      (classifySlice pm pl pa pd r = some "artifact" ↔ pm + pl ≤ r ∧ r < pm + pl + pa) ∧
      (classifySlice pm pl pa pd r = some "deformed_slice" ↔
        pm + pl + pa ≤ r ∧ r < pm + pl + pa + pd) ∧
      (classifySlice pm pl pa pd r = none ↔ pm + pl + pa + pd ≤ r)) := by
  exact ⟨buildPlan_keys_lt pm pl pa pd draws _,
         buildPlan_keys_nodup pm pl pa pd draws _,
         fun c hc => buildPlan_lookup pm pl pa pd draws _ c hc,
         fun r => classifySlice_spec pm pl pa pd r h0l h0a h0d⟩

/-- C3, witness: a concrete instantiation with probabilities
`(1/4, 1/4, 1/4, 1/4)`, a 3-section ROI, and concrete draws. -/
theorem C3_slice_plan_builder_witness :
    ((1:ℚ)/4 + 1/4 + 1/4 + 1/4 ≤ 1 ∧ 0 ≤ (1:ℚ)/4) ∧
    (let N := numSections ⟨[0,0,0], [3,10,10]⟩ [1,5,5] 0
     let plan := buildPlan (1/4) (1/4) (1/4) (1/4) (fun c => c / 3) N
     (∀ p ∈ plan, p.1 < N) ∧
     (plan.map Prod.fst).Nodup ∧
     (∀ c, c < N → plan.lookup c = classifySlice (1/4) (1/4) (1/4) (1/4) (c / 3)) ∧
     (∀ r : ℚ,
       (classifySlice (1/4) (1/4) (1/4) (1/4) r = some "zero_out" ↔ r < 1/4) ∧
       (classifySlice (1/4) (1/4) (1/4) (1/4) r = some "lower_contrast" ↔
          1/4 ≤ r ∧ r < 1/4 + 1/4) ∧
       (classifySlice (1/4) (1/4) (1/4) (1/4) r = some "artifact" ↔
          1/4 + 1/4 ≤ r ∧ r < 1/4 + 1/4 + 1/4) ∧
       (classifySlice (1/4) (1/4) (1/4) (1/4) r = some "deformed_slice" ↔
          1/4 + 1/4 + 1/4 ≤ r ∧ r < 1/4 + 1/4 + 1/4 + 1/4) ∧
       (classifySlice (1/4) (1/4) (1/4) (1/4) r = none ↔ 1/4 + 1/4 + 1/4 + 1/4 ≤ r))) :=
  ⟨⟨by norm_num, by norm_num⟩,
   C3_slice_plan_builder (1/4) (1/4) (1/4) (1/4) (fun c => c / 3)
     ⟨[0,0,0], [3,10,10]⟩ [1,5,5] 0 (by norm_num) (by norm_num) (by norm_num)
     (by norm_num) (by norm_num)⟩

/-! ### C4: the request expander -/

/-- C4: the request expander grows the upstream RAW ROI exactly when the
plan contains a deformed slice; the growth is `0` on the cut axis and
`voxel_size[d] * deformation_strength` on every other axis, applied
symmetrically before and after; volumes other than RAW are never
touched, and with no deformed slice the outgoing request is the
incoming one. -/
theorem C4_request_expander (axis : ℕ) (vs : List ℤ) (strength : ℕ)
    (plan : List (ℕ × String)) (req : Request) (roi : Roi)
    (hraw : req VolId.RAW = some roi) :
    (planHasDeform plan = true →
      expandedRequest axis vs strength plan req VolId.RAW
        = some (roi.grow (growthVec axis vs strength roi.dims)) ∧
      (growthVec axis vs strength roi.dims).getD axis 0 = 0 ∧
      (∀ d, d < roi.dims → d ≠ axis →
        (growthVec axis vs strength roi.dims).getD d 0 = vs.getD d 0 * (strength : ℤ)) ∧
      (∀ g : List ℤ, (roi.grow g).offset = (List.zip roi.offset g).map (fun p => p.1 - p.2) ∧
        (roi.grow g).shape = (List.zip roi.shape g).map (fun p => p.1 + 2 * p.2))) ∧
    (planHasDeform plan = false → expandedRequest axis vs strength plan req = req) ∧
    (∀ id, id ≠ VolId.RAW → expandedRequest axis vs strength plan req id = req id) := by
  refine ⟨fun hd => ?_, fun hd => ?_, fun id hid => ?_⟩
  · refine ⟨?_, ?_, fun d hdlt hdne => ?_, fun g => ⟨rfl, rfl⟩⟩
    · unfold expandedRequest
      rw [hd, hraw]
      simp
    · unfold growthVec
      by_cases hax : axis < roi.dims
      · rw [List.getD_eq_getElem _ _ (by simpa using hax)]
        simp
      · rw [List.getD_eq_default]
        simp only [List.length_map, List.length_range]
        omega
    · unfold growthVec
      rw [List.getD_eq_getElem _ _ (by simpa using hdlt)]
      simp [hdne, List.getElem_range]
  · unfold expandedRequest
    rw [hd]
    simp
  · unfold expandedRequest
    cases hd : planHasDeform plan
    · rfl
    · rw [hraw]
      simp [hid]

/-- C4, witness: a concrete request over volumes RAW and ALPHA_MASK, with
a plan containing a deformed slice; the RAW ROI is grown while the
ALPHA_MASK entry is untouched. -/
theorem C4_request_expander_witness :
    (let req : Request := fun id =>
        if id = VolId.RAW then some ⟨[0,0,0], [2,10,10]⟩
        else if id = VolId.ALPHA_MASK then some ⟨[1,1,1], [1,4,4]⟩ else none
     req VolId.RAW = some ⟨[0,0,0], [2,10,10]⟩) ∧
    (let req : Request := fun id =>
        if id = VolId.RAW then some ⟨[0,0,0], [2,10,10]⟩
        else if id = VolId.ALPHA_MASK then some ⟨[1,1,1], [1,4,4]⟩ else none
     let roi : Roi := ⟨[0,0,0], [2,10,10]⟩
     let plan : List (ℕ × String) := [(0, "deformed_slice")]
     (planHasDeform plan = true →
       expandedRequest 0 [1,2,2] 3 plan req VolId.RAW
         = some (roi.grow (growthVec 0 [1,2,2] 3 roi.dims)) ∧
       (growthVec 0 [1,2,2] 3 roi.dims).getD 0 0 = 0 ∧
       (∀ d, d < roi.dims → d ≠ 0 →
         (growthVec 0 [1,2,2] 3 roi.dims).getD d 0 = [1,2,2].getD d 0 * (3 : ℤ)) ∧
       (∀ g : List ℤ, (roi.grow g).offset = (List.zip roi.offset g).map (fun p => p.1 - p.2) ∧
         (roi.grow g).shape = (List.zip roi.shape g).map (fun p => p.1 + 2 * p.2))) ∧
     (planHasDeform plan = false → expandedRequest 0 [1,2,2] 3 plan req = req) ∧
     (∀ id, id ≠ VolId.RAW → expandedRequest 0 [1,2,2] 3 plan req id = req id)) :=
  ⟨rfl, C4_request_expander 0 [1,2,2] 3 [(0, "deformed_slice")] _ ⟨[0,0,0], [2,10,10]⟩ rfl⟩

/-! ### Volumes and batches (`gunpowder/volume_spec.py`, `process` state)

`Volume.data` is a numpy array: a shape plus a total value function
(values in `ℚ`; reads outside the shape are never relevant). The
`spec.roi` of a concrete volume is always set (`volume_spec.py`
docstring), so the embedded volume carries its ROI directly. -/

structure RawVol where
  shape : ℕ × ℕ × ℕ
  data : ℕ → ℕ → ℕ → ℚ
  dtype : Dtype
  roi : Roi

/-- The coordinate of a 3d index along the cut axis. -/
def axisIdx (axis : ℕ) (i : ℕ × ℕ × ℕ) : ℕ :=
  match axis with
  | 0 => i.1
  | 1 => i.2.1
  | _ => i.2.2

/-- All indices of a 3d array of the given shape, row-major. -/
def indices3 (sh : ℕ × ℕ × ℕ) : List (ℕ × ℕ × ℕ) :=
  (List.range sh.1).flatMap (fun i =>
    (List.range sh.2.1).flatMap (fun j =>
      (List.range sh.2.2).map (fun k => (i, j, k))))

/-- The indices of the section `raw.data[section_selector]` for slice `c`:
all in-shape indices whose cut-axis coordinate is `c`. -/
def sectionIndices (axis c : ℕ) (sh : ℕ × ℕ × ℕ) : List (ℕ × ℕ × ℕ) :=
  (indices3 sh).filter (fun i => axisIdx axis i = c)

/-- `section.mean()` over the slice `c`. -/
def sectionMean (axis c : ℕ) (v : RawVol) : ℚ :=
  let l := sectionIndices axis c v.shape
  ((l.map (fun i => v.data i.1 i.2.1 i.2.2)).sum) / (l.length : ℚ)

/-- In-place overwrite of the section for slice `c`
(`raw.data[section_selector] = ...`): values on the cut-axis hyperplane
`c` are replaced, everything else is untouched. -/
def setSection (axis c : ℕ) (v : RawVol) (f : ℕ × ℕ × ℕ → ℚ) : RawVol :=
  { v with data := fun i j k => if axisIdx axis (i, j, k) = c then f (i, j, k) else v.data i j k }

/-- The 3d shape of one section (`section.shape`): the volume shape with
the cut axis collapsed to 1 (the section selector keeps the axis). -/
def secShape3 (axis : ℕ) (sh : ℕ × ℕ × ℕ) : ℕ × ℕ × ℕ :=
  match axis with
  | 0 => (1, sh.2.1, sh.2.2)
  | 1 => (sh.1, 1, sh.2.2)
  | _ => (sh.1, sh.2.1, 1)

/-- Index translation from a volume index on slice `c` into the
section-local index (the cut-axis coordinate becomes 0). -/
def relIdx (axis : ℕ) (p : ℕ × ℕ × ℕ) : ℕ × ℕ × ℕ :=
  match axis with
  | 0 => (0, p.2.1, p.2.2)
  | 1 => (p.1, 0, p.2.2)
  | _ => (p.1, p.2.1, 0)

/-- The batch delivered by the artifact source for one section request
(`VolumeTypes.RAW` and `VolumeTypes.ALPHA_MASK` data with dtypes). -/
structure ArtifactBatch where
  rawData : ℕ → ℕ → ℕ → ℚ
  rawDtype : Dtype
  alphaData : ℕ → ℕ → ℕ → ℚ
  alphaDtype : Dtype

/-- `artifact_alpha.min() >= 0.0` over the section-shaped alpha array. -/
def alphaNonneg (axis : ℕ) (sh : ℕ × ℕ × ℕ) (ab : ArtifactBatch) : Bool :=
  (indices3 (secShape3 axis sh)).all (fun i => decide (0 ≤ ab.alphaData i.1 i.2.1 i.2.2))

/-- `artifact_alpha.max() <= 1.0` over the section-shaped alpha array. -/
def alphaAtMostOne (axis : ℕ) (sh : ℕ × ℕ × ℕ) (ab : ArtifactBatch) : Bool :=
  (indices3 (secShape3 axis sh)).all (fun i => decide (ab.alphaData i.1 i.2.1 i.2.2 ≤ 1))

/-- The fatal failures `process` can raise: the 3d assertion (line 142),
the artifact-branch assertions (lines 173, 186-189), and the numpy
failures of the deformed-slice branch (missing transform, `reshape`
size mismatch, boolean-mask shape mismatch). -/
inductive PErr where
  | dims3 (n : ℕ)
  | voxelMismatch
  | rawDtypeMismatch
  | alphaDtypeMismatch
  | alphaBelowZero
  | alphaAboveOne
  | keyError (c : ℕ)
  | reshapeMismatch (c : ℕ)
  | maskShapeMismatch (c : ℕ)
deriving DecidableEq, Repr

/-! ### The deformed-slice resampling (`process`, lines 193-212) -/

/-- A deformation transform as stored in
`self.deform_slice_transformations[c]`: two flattened column vectors of
absolute sampling coordinates and the dilated boolean line mask
(row-major list of rows). -/
structure Transform where
  flowX : List ℚ
  flowY : List ℚ
  mask : List (List Bool)

/-- Entry of a boolean grid stored as a list of rows. -/
def bgGet (g : List (List Bool)) (i j : ℕ) : Bool :=
  (g.getD i []).getD j false

/-- One sample of `scipy.ndimage.map_coordinates(section, (flow_y,
flow_x), mode='constant', order=order)`: coordinates outside the input
extent are filled with the constant 0; order 0 takes the nearest
neighbour (spline of order 0, `floor(c + 1/2)`); the interior spline
evaluation for positive orders is the collaborator parameter
`kernel`. -/
def mapCoordSample (kernel : ℕ → (ℤ → ℤ → ℚ) → ℚ → ℚ → ℚ) (order : ℕ)
    (h w : ℕ) (img : ℤ → ℤ → ℚ) (cy cx : ℚ) : ℚ :=
  if 0 ≤ cy ∧ cy ≤ (h : ℚ) - 1 ∧ 0 ≤ cx ∧ cx ≤ (w : ℚ) - 1 then
    if order = 0 then img (round cy) (round cx) else kernel order img cy cx
  else 0

/-- The 2d shape of `raw.data[section_selector].squeeze()`. -/
def secDims (axis : ℕ) (sh : ℕ × ℕ × ℕ) : ℕ × ℕ :=
  match axis with
  | 0 => (sh.2.1, sh.2.2)
  | 1 => (sh.1, sh.2.2)
  | _ => (sh.1, sh.2.1)

/-- 3d index to squeezed 2d section index. -/
def toSec (axis : ℕ) (p : ℕ × ℕ × ℕ) : ℕ × ℕ :=
  match axis with
  | 0 => (p.2.1, p.2.2)
  | 1 => (p.1, p.2.2)
  | _ => (p.1, p.2.1)

/-- 2d section index back to the 3d index on slice `c`. -/
def fromSec (axis c : ℕ) (p : ℕ × ℕ) : ℕ × ℕ × ℕ :=
  match axis with
  | 0 => (c, p.1, p.2)
  | 1 => (p.1, c, p.2)
  | _ => (p.1, p.2, c)

/-- The squeezed 2d section of slice `c` as a total image on `ℤ`
(reads outside the section are 0; `mapCoordSample` guards bounds). -/
def secImg (axis c : ℕ) (v : RawVol) : ℤ → ℤ → ℚ :=
  fun y x =>
    let d := secDims axis v.shape
    if 0 ≤ y ∧ y < (d.1 : ℤ) ∧ 0 ≤ x ∧ x < (d.2 : ℤ) then
      let p := fromSec axis c (y.toNat, x.toNat)
      v.data p.1 p.2.1 p.2.2
    else 0

/-- The deformed section: resampled at the transform's absolute
coordinates (`map_coordinates(section, (flow_y, flow_x), ...)`,
reshaped to the section shape row-major), then zeroed under the line
mask (`section[line_mask] = 0`). -/
def deformedSection (kernel : ℕ → (ℤ → ℤ → ℚ) → ℚ → ℚ → ℚ) (order : ℕ)
    (h w : ℕ) (img : ℤ → ℤ → ℚ) (t : Transform) : ℕ → ℕ → ℚ :=
  fun i j =>
    if bgGet t.mask i j then 0
    else mapCoordSample kernel order h w img
      (t.flowY.getD (i * w + j) 0) (t.flowX.getD (i * w + j) 0)

/-! ### The augmentation executor (`DefectAugment.process`, lines 147-212) -/

/-- The first artifact-branch assertion that fails for the current
volume state, if any (`process` lines 173, 186-189, in source
order). -/
def artifactViolation (cfg : Config) (artifact : ℕ → ArtifactBatch)
    (v : RawVol) (c : ℕ) : Option PErr :=
  if cfg.rawVoxelSize ≠ cfg.alphaVoxelSize then some .voxelMismatch
  else
    let ab := artifact c
    if ab.rawDtype ≠ v.dtype then some .rawDtypeMismatch
    else if ab.alphaDtype ≠ Dtype.float32 then some .alphaDtypeMismatch
    else if ¬ alphaNonneg cfg.axis v.shape ab then some .alphaBelowZero
    else if ¬ alphaAtMostOne cfg.axis v.shape ab then some .alphaAboveOne
    else none

/-- The arithmetic of the `process` low-contrast branch (source lines
158-165): subtract the section mean, scale, add the mean back. -/
def lowContrastValue (scale m x : ℚ) : ℚ := (x - m) * scale + m

/-- The artifact alpha blend of `process` line 191:
`section * (1 - alpha) + artifact_raw * alpha`. -/
def blendedValue (ab : ArtifactBatch) (x : ℚ) (q : ℕ × ℕ × ℕ) : ℚ :=
  x * (1 - ab.alphaData q.1 q.2.1 q.2.2) + ab.rawData q.1 q.2.1 q.2.2 * ab.alphaData q.1 q.2.1 q.2.2

/-- The interpolation order of `process` line 198: cubic when the RAW
spec is interpolatable, nearest otherwise. -/
def interpOrder (cfg : Config) : ℕ := if cfg.interpolatable then 3 else 0

/-- One iteration of the `process` loop: dispatch on the augmentation
tag for one slice. Note the branch tags are exactly the source's
strings: the loop matches `"low_contrast"` (line 157) even though the
plan stores `"lower_contrast"` (line 107); a tag matching no branch
leaves the volume untouched. An error carries the volume state at the
moment it is raised (numpy mutation is in place). -/
def applyAug (kernel : ℕ → (ℤ → ℤ → ℚ) → ℚ → ℚ → ℚ) (cfg : Config)
    (transforms : ℕ → Option Transform) (artifact : ℕ → ArtifactBatch)
    (v : RawVol) (item : ℕ × String) : Except (PErr × RawVol) RawVol :=
  if item.2 = "zero_out" then
    .ok (setSection cfg.axis item.1 v (fun _ => 0))
  else if item.2 = "low_contrast" then
    .ok (setSection cfg.axis item.1 v
      (fun p => lowContrastValue cfg.contrast_scale (sectionMean cfg.axis item.1 v)
        (v.data p.1 p.2.1 p.2.2)))
  else if item.2 = "artifact" then
    match artifactViolation cfg artifact v item.1 with
    | some e => .error (e, v)
    | none =>
        .ok (setSection cfg.axis item.1 v (fun p =>
          blendedValue (artifact item.1) (v.data p.1 p.2.1 p.2.2) (relIdx cfg.axis p)))
  else if item.2 = "deformed_slice" then
    match transforms item.1 with
    | none => .error (.keyError item.1, v)
    | some t =>
        if t.flowX.length = (secDims cfg.axis v.shape).1 * (secDims cfg.axis v.shape).2 ∧
            t.flowY.length = (secDims cfg.axis v.shape).1 * (secDims cfg.axis v.shape).2 then
          if t.mask.length = (secDims cfg.axis v.shape).1 ∧
              t.mask.all (fun row => row.length = (secDims cfg.axis v.shape).2) then
            .ok (setSection cfg.axis item.1 v (fun p =>
              deformedSection kernel (interpOrder cfg)
                (secDims cfg.axis v.shape).1 (secDims cfg.axis v.shape).2
                (secImg cfg.axis item.1 v) t
                (toSec cfg.axis p).1 (toSec cfg.axis p).2))
          else .error (.maskShapeMismatch item.1, v)
        else .error (.reshapeMismatch item.1, v)
  else .ok v

/-- The `process` loop over `self.slice_to_augmentation.items()` (dict
items in slice order). -/
def runPlan (kernel : ℕ → (ℤ → ℤ → ℚ) → ℚ → ℚ → ℚ) (cfg : Config)
    (transforms : ℕ → Option Transform) (artifact : ℕ → ArtifactBatch) :
    List (ℕ × String) → RawVol → Except (PErr × RawVol) RawVol
  | [], v => .ok v
  | item :: rest, v =>
      match applyAug kernel cfg transforms artifact v item with
      | .ok v' => runPlan kernel cfg transforms artifact rest v'
      | .error e => .error e

/-! ### The geometry restorer (`process`, lines 214-224) -/

/-- Length of `a[slice(s, -s)]` on an axis of length `L`: Python slice
semantics, where the stop index `-s` means `L - s` for `s > 0` but `0`
for `s = 0` (so `slice(0, -0)` is empty). -/
def pyCropLen (L s : ℕ) : ℕ :=
  if s = 0 then 0 else L - 2 * s

/-- The crop `raw.data = raw.data[crop]` with
`slice(deformation_strength, -deformation_strength)` on every axis
except the cut axis. -/
def cropVol (axis s : ℕ) (v : RawVol) : RawVol :=
  { shape := (if axis = 0 then v.shape.1 else pyCropLen v.shape.1 s,
              if axis = 1 then v.shape.2.1 else pyCropLen v.shape.2.1 s,
              if axis = 2 then v.shape.2.2 else pyCropLen v.shape.2.2 s),
    data := fun i j k =>
      v.data (if axis = 0 then i else i + s) (if axis = 1 then j else j + s)
        (if axis = 2 then k else k + s),
    dtype := v.dtype,
    roi := v.roi }

/-- `DefectAugment.process`. `origReqRoi` is the RAW ROI of the request
object handed to `process`. Modelled from the spec: the pipeline driver
(`BatchFilter.provide`, not under the sources) passes `prepare` a copy
of the request, so the request seen by `process` still carries the
originally requested (pre-growth) ROI, which the restorer reads at line
217 (`old_roi = request[VolumeTypes.RAW].roi`). `totalDims` is
`batch.get_total_roi().dims()` (batch implementation also outside the
sources). -/
def processVolume (kernel : ℕ → (ℤ → ℤ → ℚ) → ℚ → ℚ → ℚ) (cfg : Config)
    (plan : List (ℕ × String)) (transforms : ℕ → Option Transform)
    (artifact : ℕ → ArtifactBatch) (origReqRoi : Roi) (totalDims : ℕ)
    (v : RawVol) : Except (PErr × RawVol) RawVol :=
  if totalDims ≠ 3 then .error (.dims3 totalDims, v)
  else
    match runPlan kernel cfg transforms artifact plan v with
    | .error e => .error e
    | .ok v' =>
        if planHasDeform plan then
          .ok { cropVol cfg.axis cfg.deformation_strength v' with roi := origReqRoi }
        else .ok v'

/-! ### Preservation lemmas for the `process` loop -/

theorem applyAug_ok_preserves (kernel : ℕ → (ℤ → ℤ → ℚ) → ℚ → ℚ → ℚ) (cfg : Config)
    (transforms : ℕ → Option Transform) (artifact : ℕ → ArtifactBatch)
    (v : RawVol) (item : ℕ × String) (v' : RawVol)
    (h : applyAug kernel cfg transforms artifact v item = .ok v') :
    v'.shape = v.shape ∧ v'.dtype = v.dtype ∧ v'.roi = v.roi := by
  unfold applyAug at h
  split_ifs at h with h1 h2 h3 h4
  · cases h
    exact ⟨rfl, rfl, rfl⟩
  · cases h
    exact ⟨rfl, rfl, rfl⟩
  · rcases hv : artifactViolation cfg artifact v item.1 with _ | e <;> rw [hv] at h
    · cases h
      exact ⟨rfl, rfl, rfl⟩
    · exact Except.noConfusion h
  · rcases ht : transforms item.1 with _ | t <;> rw [ht] at h
    · exact Except.noConfusion h
    · simp only at h
      split_ifs at h <;>
        first
          | (cases h; exact ⟨rfl, rfl, rfl⟩)
          | exact Except.noConfusion h
  · cases h
    exact ⟨rfl, rfl, rfl⟩

theorem runPlan_ok_preserves (kernel : ℕ → (ℤ → ℤ → ℚ) → ℚ → ℚ → ℚ) (cfg : Config)
    (transforms : ℕ → Option Transform) (artifact : ℕ → ArtifactBatch)
    (plan : List (ℕ × String)) (v v' : RawVol)
    (h : runPlan kernel cfg transforms artifact plan v = .ok v') :
    v'.shape = v.shape ∧ v'.dtype = v.dtype ∧ v'.roi = v.roi := by
  induction plan generalizing v with
  | nil =>
      cases h
      exact ⟨rfl, rfl, rfl⟩
  | cons item rest ih =>
      unfold runPlan at h
      rcases ha : applyAug kernel cfg transforms artifact v item with e | w <;> rw [ha] at h
      · exact Except.noConfusion h
      · have h1 := applyAug_ok_preserves kernel cfg transforms artifact v item w ha
        have h2 := ih w h
        exact ⟨h2.1.trans h1.1, h2.2.1.trans h1.2.1, h2.2.2.trans h1.2.2⟩

theorem runPlan_cons (kernel : ℕ → (ℤ → ℤ → ℚ) → ℚ → ℚ → ℚ) (cfg : Config)
    (transforms : ℕ → Option Transform) (artifact : ℕ → ArtifactBatch)
    (item : ℕ × String) (rest : List (ℕ × String)) (v : RawVol) :
    runPlan kernel cfg transforms artifact (item :: rest) v
      = match applyAug kernel cfg transforms artifact v item with
        | .ok v' => runPlan kernel cfg transforms artifact rest v'
        | .error e => .error e := rfl

theorem runPlan_append_error (kernel : ℕ → (ℤ → ℤ → ℚ) → ℚ → ℚ → ℚ) (cfg : Config)
    (transforms : ℕ → Option Transform) (artifact : ℕ → ArtifactBatch)
    (pre rest : List (ℕ × String)) (item : ℕ × String) (v w : RawVol)
    (e : PErr × RawVol)
    (hpre : runPlan kernel cfg transforms artifact pre v = .ok w)
    (herr : applyAug kernel cfg transforms artifact w item = .error e) :
    runPlan kernel cfg transforms artifact (pre ++ item :: rest) v = .error e := by
  induction pre generalizing v with
  | nil =>
      cases hpre
      rw [List.nil_append, runPlan_cons, herr]
  | cons q t ih =>
      rw [runPlan_cons] at hpre
      rw [List.cons_append, runPlan_cons]
      rcases ha : applyAug kernel cfg transforms artifact v q with e' | u <;> rw [ha] at hpre
      · exact Except.noConfusion hpre
      · exact ih u hpre

/-! ### C2: the low-contrast tag mismatch (code bug) -/

/-- A kernel instantiation for concrete runs (irrelevant whenever the
interpolation order is 0). -/
def trivialKernel : ℕ → (ℤ → ℤ → ℚ) → ℚ → ℚ → ℚ := fun _ _ _ _ => 0

/-- Concrete fixture for C2: 1×1×2 volume with values 0 and 1. -/
def volC2 : RawVol :=
  { shape := (1, 1, 2),
    data := fun _ _ k => if k = 0 then 0 else 1,
    dtype := .uint8,
    roi := ⟨[0, 0, 0], [1, 1, 2]⟩ }

/-- Concrete fixture for C2: `prob_low_contrast = 1`,
`contrast_scale = 1/10`. -/
def cfgC2 : Config :=
  { prob_missing := 0, prob_low_contrast := 1, prob_artifact := 0, prob_deform := 0,
    contrast_scale := 1 / 10, deformation_strength := 20, axis := 0,
    interpolatable := true, rawVoxelSize := [1, 1, 1], alphaVoxelSize := [1, 1, 1] }

/-- Unused artifact source for runs without an artifact slice. -/
def artifactUnused : ℕ → ArtifactBatch :=
  fun _ => ⟨fun _ _ _ => 0, .uint8, fun _ _ _ => 0, .float32⟩

/-- C2 (code bug): with `prob_low_contrast = 1` the plan tags slice 0
with the string `"lower_contrast"` (prepare, line 107), but `process`
dispatches on `"low_contrast"` (line 157), so no branch matches and
the returned volume is bit-identical to the input: the slice mean-
preserving contraction is never executed. Had the planned branch run,
the pixel with value 1 would have become
`(1 - mean) * contrast_scale + mean = 11/20 ≠ 1`. -/
theorem C2_low_contrast_never_applied :
    buildPlan 0 1 0 0 (fun _ => 0) 1 = [(0, "lower_contrast")] ∧
    processVolume trivialKernel cfgC2 (buildPlan 0 1 0 0 (fun _ => 0) 1)
        (fun _ => none) artifactUnused ⟨[0, 0, 0], [1, 1, 2]⟩ 3 volC2 = .ok volC2 ∧
    volC2.data 0 0 1 = 1 ∧
    sectionMean 0 0 volC2 = 1 / 2 ∧
    lowContrastValue cfgC2.contrast_scale (sectionMean 0 0 volC2) (volC2.data 0 0 1) = 11 / 20 ∧
    (11 / 20 : ℚ) ≠ 1 := by
  refine ⟨by decide, rfl, rfl, by decide, by decide, by decide⟩

/-! ### C9: data-contract violations -/

/-- Concrete fixture for C9: 2×1×1 volume of ones. -/
def volC9 : RawVol :=
  { shape := (2, 1, 1), data := fun _ _ _ => 1, dtype := .uint8,
    roi := ⟨[0, 0, 0], [2, 1, 1]⟩ }

/-- Concrete fixture for C9: an artifact batch whose alpha mask is not
32-bit float. -/
def abBadAlpha : ArtifactBatch :=
  { rawData := fun _ _ _ => 5, rawDtype := .uint8,
    alphaData := fun _ _ _ => 0, alphaDtype := .float64 }

/-- Concrete fixture for C9. -/
def cfgC9 : Config :=
  { prob_missing := 1 / 2, prob_low_contrast := 0, prob_artifact := 1 / 2, prob_deform := 0,
    contrast_scale := 1 / 10, deformation_strength := 20, axis := 0,
    interpolatable := false, rawVoxelSize := [1, 1, 1], alphaVoxelSize := [1, 1, 1] }

/-- The state of `volC9` after the zero-out of slice 0. -/
def wC9 : RawVol := setSection 0 0 volC9 (fun _ => 0)

/-- C9, counterexample: a plan produced by the plan builder zeroes slice
0 and then hits the artifact alpha-dtype assertion at slice 1; the
raised error leaves slice 0 modified (its value is 0, the input had 1),
refuting "no slice of the raw volume has been modified when the error
is raised". -/
theorem C9_counterexample :
    buildPlan (1 / 2) 0 (1 / 2) 0 (fun c => if c = 0 then 0 else 1 / 2) 2
      = [(0, "zero_out"), (1, "artifact")] ∧
    processVolume trivialKernel cfgC9 [(0, "zero_out"), (1, "artifact")]
        (fun _ => none) (fun _ => abBadAlpha) ⟨[0, 0, 0], [2, 1, 1]⟩ 3 volC9
      = .error (.alphaDtypeMismatch, wC9) ∧
    wC9.data 0 0 0 = 0 ∧
    volC9.data 0 0 0 = 1 := by
  refine ⟨by decide, rfl, rfl, rfl⟩

/-- C9 (amended): a batch whose total ROI is not 3-dimensional, or an
artifact contract violation (voxel-size mismatch, RAW dtype mismatch,
alpha not 32-bit float, alpha outside `[0, 1]`), makes `process` fail
with a fatal assertion and the batch is rejected; the dimensionality
check fires before any modification, but an artifact assertion firing
later in the loop leaves the in-place modifications of all earlier
iterations in the raw volume (no rollback): the error state is exactly
the volume after the prefix of the plan. -/
theorem C9_data_contract_failures (kernel : ℕ → (ℤ → ℤ → ℚ) → ℚ → ℚ → ℚ)
    (cfg : Config) (transforms : ℕ → Option Transform) (artifact : ℕ → ArtifactBatch)
    (pre rest : List (ℕ × String)) (c : ℕ) (origRoi : Roi) (totalDims : ℕ)
    (v w : RawVol) (e : PErr)
    (hpre : runPlan kernel cfg transforms artifact pre v = .ok w)
    (hviol : artifactViolation cfg artifact w c = some e) :
    (totalDims ≠ 3 →
      processVolume kernel cfg (pre ++ (c, "artifact") :: rest) transforms artifact
        origRoi totalDims v = .error (.dims3 totalDims, v)) ∧
    processVolume kernel cfg (pre ++ (c, "artifact") :: rest) transforms artifact
        origRoi 3 v = .error (e, w) := by
  have herr : applyAug kernel cfg transforms artifact w (c, "artifact") = .error (e, w) := by
    unfold applyAug
    simp only [hviol]
    rw [if_neg (by decide : ¬("artifact" : String) = "zero_out"),
        if_neg (by decide : ¬("artifact" : String) = "low_contrast"),
        if_pos trivial]
  constructor
  · intro hd
    unfold processVolume
    rw [if_pos hd]
  · unfold processVolume
    rw [if_neg (by simp)]
    rw [runPlan_append_error kernel cfg transforms artifact pre rest (c, "artifact")
      v w (e, w) hpre herr]

/-- C9, witness: the amended theorem applied to the concrete fixture of
the counterexample (prefix `[(0, "zero_out")]`, violating artifact at
slice 1, `totalDims = 4` for the dimensionality conjunct). -/
theorem C9_data_contract_failures_witness :
    (runPlan trivialKernel cfgC9 (fun _ => none) (fun _ => abBadAlpha)
        [(0, "zero_out")] volC9 = .ok wC9 ∧
     artifactViolation cfgC9 (fun _ => abBadAlpha) wC9 1 = some .alphaDtypeMismatch) ∧
    ((4 ≠ 3 →
      processVolume trivialKernel cfgC9 ([(0, "zero_out")] ++ (1, "artifact") :: [])
        (fun _ => none) (fun _ => abBadAlpha) ⟨[0, 0, 0], [2, 1, 1]⟩ 4 volC9
        = .error (.dims3 4, volC9)) ∧
     processVolume trivialKernel cfgC9 ([(0, "zero_out")] ++ (1, "artifact") :: [])
        (fun _ => none) (fun _ => abBadAlpha) ⟨[0, 0, 0], [2, 1, 1]⟩ 3 volC9
        = .error (.alphaDtypeMismatch, wC9)) :=
  ⟨⟨rfl, rfl⟩,
   C9_data_contract_failures trivialKernel cfgC9 (fun _ => none) (fun _ => abBadAlpha)
     [(0, "zero_out")] [] 1 ⟨[0, 0, 0], [2, 1, 1]⟩ 4 volC9 wC9 .alphaDtypeMismatch rfl rfl⟩

/-! ### C1: helper lemmas for the ROI/crop arithmetic -/

/-- The voxel-unit shape implied by a ROI at a voxel size, as a 3d
shape (`(roi / voxel_size).get_shape()`). -/
def voxShape3 (roi : Roi) (vs : List ℤ) : ℕ × ℕ × ℕ :=
  (((roi.div vs).shape.getD 0 0).toNat,
   ((roi.div vs).shape.getD 1 0).toNat,
   ((roi.div vs).shape.getD 2 0).toNat)

theorem zip_map_getD (f : ℤ × ℤ → ℤ) (l1 l2 : List ℤ) (d : ℕ)
    (h1 : d < l1.length) (h2 : d < l2.length) :
    ((List.zip l1 l2).map f).getD d 0 = f (l1.getD d 0, l2.getD d 0) := by
  have hz : d < (List.zip l1 l2).length := by
    rw [List.length_zip]
    omega
  rw [List.getD_eq_getElem _ _ (by simpa using hz),
      List.getD_eq_getElem _ _ h1, List.getD_eq_getElem _ _ h2]
  simp [List.getElem_zip]

theorem growthVec_length (axis : ℕ) (vs : List ℤ) (s dims : ℕ) :
    (growthVec axis vs s dims).length = dims := by
  simp [growthVec]

theorem growthVec_getD (axis : ℕ) (vs : List ℤ) (s dims d : ℕ) (hd : d < dims) :
    (growthVec axis vs s dims).getD d 0
      = if d = axis then 0 else vs.getD d 0 * (s : ℤ) := by
  unfold growthVec
  rw [List.getD_eq_getElem _ _ (by simpa using hd)]
  simp

theorem grow_shape_getD (roi : Roi) (g : List ℤ) (d : ℕ)
    (h1 : d < roi.shape.length) (h2 : d < g.length) :
    (roi.grow g).shape.getD d 0 = roi.shape.getD d 0 + 2 * g.getD d 0 :=
  zip_map_getD (fun p => p.1 + 2 * p.2) roi.shape g d h1 h2

theorem div_shape_getD (roi : Roi) (vs : List ℤ) (d : ℕ)
    (h1 : d < roi.shape.length) (h2 : d < vs.length) :
    (roi.div vs).shape.getD d 0 = (roi.shape.getD d 0).fdiv (vs.getD d 0) :=
  zip_map_getD (fun p => Int.fdiv p.1 p.2) roi.shape vs d h1 h2

theorem grownVox_getD (roi : Roi) (vs : List ℤ) (axis s d : ℕ)
    (hd : d < roi.shape.length) (hvd : d < vs.length)
    (hpos : 0 < vs.getD d 0) :
    ((roi.grow (growthVec axis vs s roi.dims)).div vs).shape.getD d 0
      = (roi.div vs).shape.getD d 0 + (if d = axis then 0 else 2 * (s : ℤ)) := by
  have hglen : (growthVec axis vs s roi.dims).length = roi.shape.length :=
    growthVec_length axis vs s roi.dims
  have hgrowlen : (roi.grow (growthVec axis vs s roi.dims)).shape.length = roi.shape.length := by
    simp [Roi.grow, List.length_zip, hglen]
  rw [div_shape_getD _ vs d (by omega) hvd,
      grow_shape_getD roi _ d hd (by omega),
      growthVec_getD axis vs s roi.dims d hd,
      div_shape_getD roi vs d hd hvd]
  by_cases hda : d = axis
  · simp [hda]
  · rw [if_neg hda, if_neg hda]
    have hb : (0 : ℤ) ≤ vs.getD d 0 := le_of_lt hpos
    have hne : vs.getD d 0 ≠ 0 := ne_of_gt hpos
    rw [Int.fdiv_eq_ediv _ hb, Int.fdiv_eq_ediv _ hb]
    have : roi.shape.getD d 0 + 2 * (vs.getD d 0 * (s : ℤ))
        = roi.shape.getD d 0 + (2 * s) * vs.getD d 0 := by ring
    rw [this, Int.add_mul_ediv_right _ _ hne]

theorem cropComponent (roi : Roi) (vs : List ℤ) (axis s d : ℕ)
    (hd3 : d < 3) (hroi : roi.shape.length = 3) (hvl : vs.length = 3)
    (hpos : 0 < vs.getD d 0) (hnn : 0 ≤ roi.shape.getD d 0) (hs : 1 ≤ s) :
    (if axis = d then
       (((roi.grow (growthVec axis vs s roi.dims)).div vs).shape.getD d 0).toNat
     else pyCropLen ((((roi.grow (growthVec axis vs s roi.dims)).div vs).shape.getD d 0).toNat) s)
    = ((roi.div vs).shape.getD d 0).toNat := by
  have hg := grownVox_getD roi vs axis s d (by omega) (by omega) hpos
  have hnn0 : (0 : ℤ) ≤ (roi.div vs).shape.getD d 0 := by
    rw [div_shape_getD roi vs d (by omega) (by omega)]
    exact Int.fdiv_nonneg hnn (le_of_lt hpos)
  by_cases hda : axis = d
  · rw [if_pos hda, hg, if_pos hda.symm]
    simp
  · rw [if_neg hda, hg, if_neg (fun h => hda h.symm)]
    have ht : ((roi.div vs).shape.getD d 0 + 2 * (s : ℤ)).toNat
        = ((roi.div vs).shape.getD d 0).toNat + 2 * s := by
      omega
    rw [ht]
    unfold pyCropLen
    rw [if_neg (by omega)]
    omega

/-- C1 (amended): provided `deformation_strength ≥ 1` (for strength 0 the
Python crop `slice(0, -0)` empties the non-cut axes, see the
counterexample), and the upstream provider honours the prepared
request, the raw volume returned by `process` has ROI equal to the
originally requested ROI and data shape equal to that ROI divided by
the raw voxel size: when the plan holds a deformed slice every non-cut
axis is cropped by `deformation_strength` per side and the ROI is reset
to the original request's ROI; with no deformed slice no crop or ROI
change happens. -/
theorem C1_geometry_restorer (kernel : ℕ → (ℤ → ℤ → ℚ) → ℚ → ℚ → ℚ) (cfg : Config)
    (plan : List (ℕ × String)) (transforms : ℕ → Option Transform)
    (artifact : ℕ → ArtifactBatch) (req : Request) (origRoi : Roi) (v v1 : RawVol)
    (hax : cfg.axis < 3)
    (hs : 1 ≤ cfg.deformation_strength)
    (hvl : cfg.rawVoxelSize.length = 3)
    (hrl : origRoi.shape.length = 3)
    (hpos : ∀ d, d < 3 → 0 < cfg.rawVoxelSize.getD d 0)
    (hnn : ∀ d, d < 3 → 0 ≤ origRoi.shape.getD d 0)
    (hreq : req VolId.RAW = some origRoi)
    (hup : ∀ uroi, expandedRequest cfg.axis cfg.rawVoxelSize cfg.deformation_strength
        plan req VolId.RAW = some uroi →
      v.shape = voxShape3 uroi cfg.rawVoxelSize ∧ v.roi = uroi)
    (hrun : runPlan kernel cfg transforms artifact plan v = .ok v1) :
    (planHasDeform plan = false →
      processVolume kernel cfg plan transforms artifact origRoi 3 v = .ok v1 ∧
      v1.roi = origRoi ∧ v1.shape = voxShape3 origRoi cfg.rawVoxelSize) ∧
    (planHasDeform plan = true →
      processVolume kernel cfg plan transforms artifact origRoi 3 v
        = .ok { cropVol cfg.axis cfg.deformation_strength v1 with roi := origRoi } ∧
      ({ cropVol cfg.axis cfg.deformation_strength v1 with roi := origRoi } : RawVol).roi
        = origRoi ∧
      (cropVol cfg.axis cfg.deformation_strength v1).shape
        = voxShape3 origRoi cfg.rawVoxelSize) := by
  have hpres := runPlan_ok_preserves kernel cfg transforms artifact plan v v1 hrun
  constructor
  · intro hd
    have hupr : expandedRequest cfg.axis cfg.rawVoxelSize cfg.deformation_strength
        plan req VolId.RAW = some origRoi := by
      unfold expandedRequest
      rw [hd]
      simpa using hreq
    rcases hup origRoi hupr with ⟨hvs, hvr⟩
    refine ⟨?_, hpres.2.2.trans hvr, hpres.1.trans hvs⟩
    unfold processVolume
    rw [if_neg (by simp), hrun, hd]
    rfl
  · intro hd
    have hupr : expandedRequest cfg.axis cfg.rawVoxelSize cfg.deformation_strength
        plan req VolId.RAW
        = some (origRoi.grow (growthVec cfg.axis cfg.rawVoxelSize
            cfg.deformation_strength origRoi.dims)) := by
      unfold expandedRequest
      rw [hd, hreq]
      simp
    rcases hup _ hupr with ⟨hvs, hvr⟩
    refine ⟨?_, rfl, ?_⟩
    · unfold processVolume
      rw [if_neg (by simp), hrun, hd]
      rfl
    · have hshape : v1.shape = voxShape3 (origRoi.grow (growthVec cfg.axis cfg.rawVoxelSize
          cfg.deformation_strength origRoi.dims)) cfg.rawVoxelSize := hpres.1.trans hvs
      have h0 := cropComponent origRoi cfg.rawVoxelSize cfg.axis cfg.deformation_strength 0
        (by omega) hrl hvl (hpos 0 (by omega)) (hnn 0 (by omega)) hs
      have h1 := cropComponent origRoi cfg.rawVoxelSize cfg.axis cfg.deformation_strength 1
        (by omega) hrl hvl (hpos 1 (by omega)) (hnn 1 (by omega)) hs
      have h2 := cropComponent origRoi cfg.rawVoxelSize cfg.axis cfg.deformation_strength 2
        (by omega) hrl hvl (hpos 2 (by omega)) (hnn 2 (by omega)) hs
      have e0 : v1.shape.1 = (((origRoi.grow (growthVec cfg.axis cfg.rawVoxelSize
          cfg.deformation_strength origRoi.dims)).div cfg.rawVoxelSize).shape.getD 0 0).toNat := by
        rw [hshape]
        rfl
      have e1 : v1.shape.2.1 = (((origRoi.grow (growthVec cfg.axis cfg.rawVoxelSize
          cfg.deformation_strength origRoi.dims)).div cfg.rawVoxelSize).shape.getD 1 0).toNat := by
        rw [hshape]
        rfl
      have e2 : v1.shape.2.2 = (((origRoi.grow (growthVec cfg.axis cfg.rawVoxelSize
          cfg.deformation_strength origRoi.dims)).div cfg.rawVoxelSize).shape.getD 2 0).toNat := by
        rw [hshape]
        rfl
      show (if cfg.axis = 0 then v1.shape.1 else pyCropLen v1.shape.1 cfg.deformation_strength,
            if cfg.axis = 1 then v1.shape.2.1 else pyCropLen v1.shape.2.1 cfg.deformation_strength,
            if cfg.axis = 2 then v1.shape.2.2 else pyCropLen v1.shape.2.2 cfg.deformation_strength)
          = (((origRoi.div cfg.rawVoxelSize).shape.getD 0 0).toNat,
             ((origRoi.div cfg.rawVoxelSize).shape.getD 1 0).toNat,
             ((origRoi.div cfg.rawVoxelSize).shape.getD 2 0).toNat)
      rw [e0, e1, e2, Prod.mk.injEq, Prod.mk.injEq]
      exact ⟨h0, h1, h2⟩

/-! ### C1: concrete fixtures -/

/-- Identity flow transform for a 4×4 padded section (flattened
meshgrid), with an all-false 4×4 mask. -/
def tC1 : Transform :=
  { flowX := [0, 1, 2, 3, 0, 1, 2, 3, 0, 1, 2, 3, 0, 1, 2, 3],
    flowY := [0, 0, 0, 0, 1, 1, 1, 1, 2, 2, 2, 2, 3, 3, 3, 3],
    mask := List.replicate 4 (List.replicate 4 false) }

/-- Concrete fixture for the C1 witness: `deformation_strength = 1`. -/
def cfgC1 : Config :=
  { prob_missing := 0, prob_low_contrast := 0, prob_artifact := 0, prob_deform := 1,
    contrast_scale := 1 / 10, deformation_strength := 1, axis := 0,
    interpolatable := false, rawVoxelSize := [1, 1, 1], alphaVoxelSize := [1, 1, 1] }

/-- The request of the C1 witness: RAW over a 1×2×2 ROI. -/
def reqC1 : Request := fun id => if id = VolId.RAW then some ⟨[0, 0, 0], [1, 2, 2]⟩ else none

/-- The upstream batch of the C1 witness: the grown 1×4×4 volume. -/
def vC1 : RawVol :=
  { shape := (1, 4, 4), data := fun _ _ _ => 7, dtype := .uint8,
    roi := ⟨[0, -1, -1], [1, 4, 4]⟩ }

/-- The volume after the deformed-slice step of the C1 witness run. -/
def v1C1 : RawVol :=
  setSection 0 0 vC1 (fun p =>
    deformedSection trivialKernel (interpOrder cfgC1) 4 4 (secImg 0 0 vC1) tC1
      (toSec 0 p).1 (toSec 0 p).2)

/-- C1, witness: the amended theorem applied to a concrete deformed run
with `deformation_strength = 1`: the returned ROI is the original
1×2×2 request and the cropped shape is `(1, 2, 2)`. -/
theorem C1_geometry_restorer_witness :
    (reqC1 VolId.RAW = some ⟨[0, 0, 0], [1, 2, 2]⟩ ∧
     runPlan trivialKernel cfgC1 (fun _ => some tC1) artifactUnused
       [(0, "deformed_slice")] vC1 = .ok v1C1) ∧
    ((planHasDeform [(0, "deformed_slice")] = false →
      processVolume trivialKernel cfgC1 [(0, "deformed_slice")] (fun _ => some tC1)
        artifactUnused ⟨[0, 0, 0], [1, 2, 2]⟩ 3 vC1 = .ok v1C1 ∧
      v1C1.roi = ⟨[0, 0, 0], [1, 2, 2]⟩ ∧
      v1C1.shape = voxShape3 ⟨[0, 0, 0], [1, 2, 2]⟩ cfgC1.rawVoxelSize) ∧
    (planHasDeform [(0, "deformed_slice")] = true →
      processVolume trivialKernel cfgC1 [(0, "deformed_slice")] (fun _ => some tC1)
        artifactUnused ⟨[0, 0, 0], [1, 2, 2]⟩ 3 vC1
        = .ok { cropVol cfgC1.axis cfgC1.deformation_strength v1C1 with
                  roi := ⟨[0, 0, 0], [1, 2, 2]⟩ } ∧
      ({ cropVol cfgC1.axis cfgC1.deformation_strength v1C1 with
           roi := (⟨[0, 0, 0], [1, 2, 2]⟩ : Roi) } : RawVol).roi = ⟨[0, 0, 0], [1, 2, 2]⟩ ∧
      (cropVol cfgC1.axis cfgC1.deformation_strength v1C1).shape
        = voxShape3 ⟨[0, 0, 0], [1, 2, 2]⟩ cfgC1.rawVoxelSize)) :=
  ⟨⟨rfl, rfl⟩,
   C1_geometry_restorer trivialKernel cfgC1 [(0, "deformed_slice")] (fun _ => some tC1)
     artifactUnused reqC1 ⟨[0, 0, 0], [1, 2, 2]⟩ vC1 v1C1
     (by decide) (by decide) (by decide) (by decide)
     (by decide) (by decide) rfl
     (by
       intro uroi h
       rw [show expandedRequest cfgC1.axis cfgC1.rawVoxelSize cfgC1.deformation_strength
             [(0, "deformed_slice")] reqC1 VolId.RAW
           = some ⟨[0, -1, -1], [1, 4, 4]⟩ from rfl] at h
       cases h
       exact ⟨rfl, rfl⟩)
     rfl⟩

/-- Concrete fixture for the C1 counterexample:
`deformation_strength = 0` with a deformed slice planned. -/
def cfgCX : Config :=
  { prob_missing := 0, prob_low_contrast := 0, prob_artifact := 0, prob_deform := 1,
    contrast_scale := 1 / 10, deformation_strength := 0, axis := 0,
    interpolatable := false, rawVoxelSize := [1, 1, 1], alphaVoxelSize := [1, 1, 1] }

/-- The upstream batch of the C1 counterexample (no growth: the growth
vector is `voxel_size * 0 = 0`). -/
def vCX : RawVol :=
  { shape := (1, 4, 4), data := fun _ _ _ => 7, dtype := .uint8,
    roi := ⟨[0, 0, 0], [1, 4, 4]⟩ }

/-- C1, counterexample: with `deformation_strength = 0` and a deformed
slice, the restorer's crop `slice(0, -0)` empties every non-cut axis,
so the returned volume has shape `(1, 0, 0)` although the requested
ROI at the raw voxel size implies `(1, 4, 4)` — the returned data shape
does not match the returned ROI metadata, refuting the claim for this
request ("cropped by deformation_strength on each side" would mean no
change at strength 0). -/
theorem C1_counterexample :
    ∃ out, processVolume trivialKernel cfgCX [(0, "deformed_slice")] (fun _ => some tC1)
        artifactUnused ⟨[0, 0, 0], [1, 4, 4]⟩ 3 vCX = .ok out ∧
      out.roi = (⟨[0, 0, 0], [1, 4, 4]⟩ : Roi) ∧
      out.shape = (1, 0, 0) ∧
      voxShape3 ⟨[0, 0, 0], [1, 4, 4]⟩ cfgCX.rawVoxelSize = (1, 4, 4) ∧
      ((1, 0, 0) : ℕ × ℕ × ℕ) ≠ (1, 4, 4) :=
  ⟨_, rfl, rfl, rfl, rfl, by decide⟩

/-! ### Flow-field generator (`DefectAugment.__prepare_deform_slice`,
lines 226-277)

Random draws are explicit inputs: `rF` is the `random.random()` used
for the fixed-x choice, `ra` and `rb` are the two
`np.random.randint(1, dim - 2)` draws. -/

/-- `random.random() < .5` decides the fixed-x orientation (line 232). -/
def drawFixedX (r : ℚ) : Bool := decide (r < 1 / 2)

/-- Modelled from the numpy contract: `np.random.randint(low, high)`
draws uniformly from the half-open integer range `[low, high)`. -/
def npRandintSupport (low high v : ℤ) : Prop := low ≤ v ∧ v < high

/-- The padded slice dimension from which the non-fixed endpoint
coordinates are drawn (`shape[1]` for fixed x, `shape[0]` otherwise). -/
def nonFixedDim (s a0 a1 : ℕ) (fx : Bool) : ℕ := if fx then a1 + 2 * s else a0 + 2 * s

/-- The padded slice shape: the slice shape grown by
`2 * deformation_strength` per axis (line 229). -/
def deformPaddedShape (s a0 a1 : ℕ) : ℕ × ℕ := (a0 + 2 * s, a1 + 2 * s)

/-- The tear-line endpoints `(x0, y0, x1, y1)` (lines 233-238). -/
def deformEndpoints (s a0 a1 : ℕ) (rF : ℚ) (ra rb : ℤ) : ℤ × ℤ × ℤ × ℤ :=
  if drawFixedX rF then (0, ra, ((a0 + 2 * s : ℕ) : ℤ) - 1, rb)
  else (ra, 0, rb, ((a1 + 2 * s : ℕ) : ℤ) - 1)

/-- One step of the `skimage.draw.line` Bresenham loop; `k` collapses
the inner `while d >= 0` loop (it runs `d / dc2 + 1` times). -/
def lineAux (sr sc dr2 dc2 : ℤ) (steep : Bool) : ℕ → ℤ → ℤ → ℤ → List (ℤ × ℤ)
  | 0, _, _, _ => []
  | n + 1, r, c, d =>
      (if steep then (c, r) else (r, c)) ::
        (lineAux sr sc dr2 dc2 steep n
          (r + sr * (if 0 ≤ d then d / dc2 + 1 else 0)) (c + sc)
          (d - dc2 * (if 0 ≤ d then d / dc2 + 1 else 0) + dr2))

/-- `skimage.draw.line(r0, c0, r1, c1)`: the Bresenham rasterisation,
inclusive of both endpoints. -/
def skline (r0 c0 r1 c1 : ℤ) : List (ℤ × ℤ) :=
  if (r1 - r0).natAbs > (c1 - c0).natAbs then
    lineAux (if c1 - c0 > 0 then 1 else -1) (if r1 - r0 > 0 then 1 else -1)
      (2 * ((c1 - c0).natAbs : ℤ)) (2 * ((r1 - r0).natAbs : ℤ)) true
      (r1 - r0).natAbs c0 r0 (2 * ((c1 - c0).natAbs : ℤ) - ((r1 - r0).natAbs : ℤ))
      ++ [(r1, c1)]
  else
    lineAux (if r1 - r0 > 0 then 1 else -1) (if c1 - c0 > 0 then 1 else -1)
      (2 * ((r1 - r0).natAbs : ℤ)) (2 * ((c1 - c0).natAbs : ℤ)) false
      (c1 - c0).natAbs r0 c0 (2 * ((r1 - r0).natAbs : ℤ) - ((c1 - c0).natAbs : ℤ))
      ++ [(r1, c1)]

/-- The rasterised tear-line pixels for the padded slice (lines 240-243). -/
def deformLinePts (s a0 a1 : ℕ) (rF : ℚ) (ra rb : ℤ) : List (ℤ × ℤ) :=
  skline (deformEndpoints s a0 a1 rF ra rb).1 (deformEndpoints s a0 a1 rF ra rb).2.1
    (deformEndpoints s a0 a1 rF ra rb).2.2.1 (deformEndpoints s a0 a1 rF ra rb).2.2.2

/-- The boolean line mask `line_mask[rr, cc] = 1` as a predicate. -/
def deformLineMask (s a0 a1 : ℕ) (rF : ℚ) (ra rb : ℤ) : ℕ → ℕ → Bool :=
  fun i j => decide (((i : ℤ), (j : ℤ)) ∈ deformLinePts s a0 a1 rF ra rb)

/-! Connected components of the mask complement
(`scipy.ndimage.measurements.label` with the default cross-shaped
structuring element, i.e. 4-connectivity). -/

/-- All cells of an `h × w` grid, row-major. -/
def cells (h w : ℕ) : List (ℕ × ℕ) :=
  (List.range h).flatMap (fun i => (List.range w).map (fun j => (i, j)))

/-- The 4-neighbours of a cell (clipped at the 0 borders). -/
def nbrs4 (p : ℕ × ℕ) : List (ℕ × ℕ) :=
  [(p.1 + 1, p.2), (p.1, p.2 + 1)] ++
    (if p.1 = 0 then [] else [(p.1 - 1, p.2)]) ++
    (if p.2 = 0 then [] else [(p.1, p.2 - 1)])

/-- One closure step of the flood fill: add every foreground cell
adjacent to the visited set. -/
def reachStep (h w : ℕ) (fg : ℕ → ℕ → Bool) (vis : List (ℕ × ℕ)) : List (ℕ × ℕ) :=
  vis ++ (cells h w).filter (fun q =>
    fg q.1 q.2 && decide (q ∉ vis) && (nbrs4 q).any (fun p => decide (p ∈ vis)))

/-- The 4-connected component of `start` in the foreground, computed by
`h * w` closure steps (enough to reach the whole grid). -/
def reach (h w : ℕ) (fg : ℕ → ℕ → Bool) (start : ℕ × ℕ) : List (ℕ × ℕ) :=
  (reachStep h w fg)^[h * w] [start]

/-- The number of 4-connected foreground components: scan the cells in
row-major order and flood-fill each not-yet-covered foreground cell. -/
def componentCount (h w : ℕ) (fg : ℕ → ℕ → Bool) : ℕ :=
  ((cells h w).foldl (fun acc p =>
    if fg p.1 p.2 ∧ p ∉ acc.2 then (acc.1 + 1, acc.2 ++ reach h w fg p) else acc)
    ((0 : ℕ), ([] : List (ℕ × ℕ)))).1

/-- The set of cells with the same `label` value as the given corner:
the corner's component when the corner is foreground, and label 0 (the
whole background, i.e. the line pixels) when the corner sits on the
line. -/
def regionOf (h w : ℕ) (fg : ℕ → ℕ → Bool) (corner : ℕ × ℕ) : ℕ → ℕ → Bool :=
  if fg corner.1 corner.2 then fun i j => decide ((i, j) ∈ reach h w fg corner)
  else fun i j => decide (i < h) && decide (j < w) && !(fg i j)

/-- `n_components` of `label(np.logical_not(line_mask))` (line 261). -/
def deformComplementCount (s a0 a1 : ℕ) (rF : ℚ) (ra rb : ℤ) : ℕ :=
  componentCount (a0 + 2 * s) (a1 + 2 * s)
    (fun i j => !(deformLineMask s a0 a1 rF ra rb i j))

/-! Dilation (`scipy.ndimage.morphology.binary_dilation`,
`iterations=10`, default cross-shaped structuring element, outside
border counts as 0). -/

/-- Materialise a predicate as an `h × w` boolean grid. -/
def bgOfFun (h w : ℕ) (f : ℕ → ℕ → Bool) : List (List Bool) :=
  (List.range h).map (fun i => (List.range w).map (f i))

/-- One binary dilation step with the cross structuring element. -/
def dilStep (h w : ℕ) (g : List (List Bool)) : List (List Bool) :=
  (List.range h).map (fun i => (List.range w).map (fun j =>
    bgGet g i j || bgGet g (i + 1) j || bgGet g i (j + 1) ||
      (decide (1 ≤ i) && bgGet g (i - 1) j) || (decide (1 ≤ j) && bgGet g i (j - 1))))

/-- `binary_dilation(mask, iterations = iters)`. -/
def dilateN (iters h w : ℕ) (g : List (List Bool)) : List (List Bool) :=
  (dilStep h w)^[iters] g

/-! The meshgrid and the numpy broadcasting of `x + flow_x` (line 272). -/

/-- A 2d numpy array of rationals. -/
structure Mat where
  rows : ℕ
  cols : ℕ
  val : ℕ → ℕ → ℚ

/-- Numpy broadcast of one axis pair: equal lengths broadcast to
themselves, a length-1 axis stretches, anything else is an error. -/
def bcLen (a b : ℕ) : Option ℕ :=
  if a = b then some a else if a = 1 then some b else if b = 1 then some a else none

/-- Index into a (possibly stretched) broadcast axis. -/
def bidx (len i : ℕ) : ℕ := if len = 1 then 0 else i

/-- Numpy elementwise addition with broadcasting; `none` is the
`ValueError: operands could not be broadcast together`. -/
def matAdd (A B : Mat) : Option Mat :=
  match bcLen A.rows B.rows, bcLen A.cols B.cols with
  | some r, some c =>
      some ⟨r, c, fun i j =>
        A.val (bidx A.rows i) (bidx A.cols j) + B.val (bidx B.rows i) (bidx B.cols j)⟩
  | _, _ => none

/-- `np.meshgrid(np.arange(a), np.arange(b))[0]`: shape `(b, a)`,
entry `X[i, j] = j`. -/
def meshX (a b : ℕ) : Mat := ⟨b, a, fun _ j => (j : ℚ)⟩

/-- `np.meshgrid(np.arange(a), np.arange(b))[1]`: shape `(b, a)`,
entry `Y[i, j] = i`. -/
def meshY (a b : ℕ) : Mat := ⟨b, a, fun i _ => (i : ℚ)⟩

/-- `.reshape(-1, 1)`: the row-major flattening as a column vector. -/
def Mat.flatten (A : Mat) : List ℚ :=
  (List.range (A.rows * A.cols)).map (fun k => A.val (k / A.cols) (k % A.cols))

/-- The complement of the line mask (foreground of the labelling). -/
def deformFg (s a0 a1 : ℕ) (rF : ℚ) (ra rb : ℤ) : ℕ → ℕ → Bool :=
  fun i j => !(deformLineMask s a0 a1 rF ra rb i j)

/-- The normalised line vector and its normal: `line_vector /= norm`
via the collaborator `normed`, then
`normal = (-line_vector[1], line_vector[0])` (lines 247-252). -/
def deformNormal (normed : ℤ → ℤ → ℚ × ℚ) (s a0 a1 : ℕ) (rF : ℚ) (ra rb : ℤ) : ℚ × ℚ :=
  (-(normed ((deformEndpoints s a0 a1 rF ra rb).2.2.1 - (deformEndpoints s a0 a1 rF ra rb).1)
      ((deformEndpoints s a0 a1 rF ra rb).2.2.2 - (deformEndpoints s a0 a1 rF ra rb).2.1)).2,
   (normed ((deformEndpoints s a0 a1 rF ra rb).2.2.1 - (deformEndpoints s a0 a1 rF ra rb).1)
      ((deformEndpoints s a0 a1 rF ra rb).2.2.2 - (deformEndpoints s a0 a1 rF ra rb).2.1)).1)

/-- The x-displacement grid (lines 257, 266-269): `+s * normal[1]` on
the positive-corner component, `-s * normal[1]` on the negative-corner
component (the negative assignment is executed last in the source and
so wins on overlap), `0` elsewhere. -/
def deformDispX (normed : ℤ → ℤ → ℚ × ℚ) (s a0 a1 : ℕ) (rF : ℚ) (ra rb : ℤ) : Mat :=
  ⟨a0 + 2 * s, a1 + 2 * s, fun i j =>
    if regionOf (a0 + 2 * s) (a1 + 2 * s) (deformFg s a0 a1 rF ra rb)
        (if drawFixedX rF then (0, 0) else (a0 + 2 * s - 1, a1 + 2 * s - 1)) i j then
      -(s : ℚ) * (deformNormal normed s a0 a1 rF ra rb).2
    else if regionOf (a0 + 2 * s) (a1 + 2 * s) (deformFg s a0 a1 rF ra rb)
        (if drawFixedX rF then (a0 + 2 * s - 1, a1 + 2 * s - 1) else (0, 0)) i j then
      (s : ℚ) * (deformNormal normed s a0 a1 rF ra rb).2
    else 0⟩

/-- The y-displacement grid (with `normal[0]`). -/
def deformDispY (normed : ℤ → ℤ → ℚ × ℚ) (s a0 a1 : ℕ) (rF : ℚ) (ra rb : ℤ) : Mat :=
  ⟨a0 + 2 * s, a1 + 2 * s, fun i j =>
    if regionOf (a0 + 2 * s) (a1 + 2 * s) (deformFg s a0 a1 rF ra rb)
        (if drawFixedX rF then (0, 0) else (a0 + 2 * s - 1, a1 + 2 * s - 1)) i j then
      -(s : ℚ) * (deformNormal normed s a0 a1 rF ra rb).1
    else if regionOf (a0 + 2 * s) (a1 + 2 * s) (deformFg s a0 a1 rF ra rb)
        (if drawFixedX rF then (a0 + 2 * s - 1, a1 + 2 * s - 1) else (0, 0)) i j then
      (s : ℚ) * (deformNormal normed s a0 a1 rF ra rb).1
    else 0⟩

/-- The failures of `__prepare_deform_slice`: an empty
`np.random.randint` range, a line pixel outside the padded slice
(numpy fancy-indexing `IndexError`), the component-count assertion of
line 262 (carrying `n_components` as in its `"%i"` message), and the
numpy broadcast failure of line 272. -/
inductive DeformErr where
  | randintEmpty
  | indexError
  | componentAssert (n : ℕ)
  | broadcastMismatch
deriving DecidableEq, Repr

/-- `DefectAugment.__prepare_deform_slice` for a 2d slice shape
`(a0, a1)` and deformation strength `s`. -/
def prepareDeformSlice (normed : ℤ → ℤ → ℚ × ℚ) (s a0 a1 : ℕ)
    (rF : ℚ) (ra rb : ℤ) : Except DeformErr Transform :=
  if ((nonFixedDim s a0 a1 (drawFixedX rF) : ℤ)) - 2 ≤ 1 then
    .error .randintEmpty
  else if (deformLinePts s a0 a1 rF ra rb).any (fun p =>
      !(decide (0 ≤ p.1) && decide (p.1 < ((a0 + 2 * s : ℕ) : ℤ)) &&
        decide (0 ≤ p.2) && decide (p.2 < ((a1 + 2 * s : ℕ) : ℤ)))) then
    .error .indexError
  else if deformComplementCount s a0 a1 rF ra rb ≠ 2 then
    .error (.componentAssert (deformComplementCount s a0 a1 rF ra rb))
  else
    match matAdd (meshX (a0 + 2 * s) (a1 + 2 * s)) (deformDispX normed s a0 a1 rF ra rb),
          matAdd (meshY (a0 + 2 * s) (a1 + 2 * s)) (deformDispY normed s a0 a1 rF ra rb) with
    | some fx, some fy =>
        .ok { flowX := fx.flatten, flowY := fy.flatten,
              mask := dilateN 10 (a0 + 2 * s) (a1 + 2 * s)
                (bgOfFun (a0 + 2 * s) (a1 + 2 * s) (deformLineMask s a0 a1 rF ra rb)) }
    | _, _ => .error .broadcastMismatch

/-- Projection used to state counterexamples: whether the result is a
success. -/
def exIsOk {ε α : Type} : Except ε α → Bool
  | .ok _ => true
  | .error _ => false

/-- Projection used to state counterexamples: the dilated mask entry at
a cell of a successful result. -/
def exMaskAt (e : Except DeformErr Transform) (i j : ℕ) : Option Bool :=
  match e with
  | .ok t => some (bgGet t.mask i j)
  | .error _ => none

/-- A concrete instantiation of the normalisation collaborator, exact
whenever the vector's norm is a perfect square (all witnesses below use
axis-aligned line vectors). -/
def ratUnit (dx dy : ℤ) : ℚ × ℚ :=
  ((dx : ℚ) / (Nat.sqrt (dx * dx + dy * dy).toNat : ℚ),
   (dy : ℚ) / (Nat.sqrt (dx * dx + dy * dy).toNat : ℚ))

/-! ### C6: the component-count assertion -/

/-- C6: when the earlier numpy steps succeed, flow-field generation
raises the assertion error exactly when labelling the complement of the
rasterised line mask yields a component count different from two, and
the raised error carries that count (the `"%i" % n_components`
message); with exactly two components no component-count error is
raised at this step. -/
theorem C6_component_assert (normed : ℤ → ℤ → ℚ × ℚ) (s a0 a1 : ℕ) (rF : ℚ) (ra rb : ℤ)
    (hrand : ¬ (((nonFixedDim s a0 a1 (drawFixedX rF) : ℕ) : ℤ) - 2 ≤ 1))
    (hidx : (deformLinePts s a0 a1 rF ra rb).any (fun p =>
      !(decide (0 ≤ p.1) && decide (p.1 < ((a0 + 2 * s : ℕ) : ℤ)) &&
        decide (0 ≤ p.2) && decide (p.2 < ((a1 + 2 * s : ℕ) : ℤ)))) = false) :
    (deformComplementCount s a0 a1 rF ra rb ≠ 2 →
      prepareDeformSlice normed s a0 a1 rF ra rb
        = .error (.componentAssert (deformComplementCount s a0 a1 rF ra rb))) ∧
    (deformComplementCount s a0 a1 rF ra rb = 2 →
      ∀ n, prepareDeformSlice normed s a0 a1 rF ra rb ≠ .error (.componentAssert n)) := by
  constructor
  · intro hC
    unfold prepareDeformSlice
    rw [if_neg hrand, if_neg (by rw [hidx]; decide), if_pos hC]
  · intro hC n
    unfold prepareDeformSlice
    rw [if_neg hrand, if_neg (by rw [hidx]; decide), if_neg (by simp [hC])]
    rcases hx : matAdd (meshX (a0 + 2 * s) (a1 + 2 * s)) (deformDispX normed s a0 a1 rF ra rb)
        with _ | fx <;>
      rcases hy : matAdd (meshY (a0 + 2 * s) (a1 + 2 * s)) (deformDispY normed s a0 a1 rF ra rb)
          with _ | fy <;>
        simp

/-- C6, witness: a 4×4 slice with both endpoint draws forced to the
border column 0 (line along the border): the complement is a single
component, the count is 1 and the assertion fires carrying 1; the
theorem is applied at this concrete input. -/
theorem C6_component_assert_witness :
    (¬ (((nonFixedDim 0 4 4 (drawFixedX 0) : ℕ) : ℤ) - 2 ≤ 1) ∧
     deformComplementCount 0 4 4 0 0 0 = 1) ∧
    prepareDeformSlice ratUnit 0 4 4 0 0 0 = .error (.componentAssert 1) :=
  ⟨⟨by decide, by decide⟩,
   by
     have h := (C6_component_assert ratUnit 0 4 4 0 0 0 (by decide) (by decide)).1 (by decide)
     rw [show deformComplementCount 0 4 4 0 0 0 = 1 from by decide] at h
     exact h⟩

/-! ### C8: the endpoint draws -/

/-- C8, counterexample: for the padded dimension 10 (slice dimension 6,
strength 2, fixed-x orientation), the value `dim - 2 = 8` is not in the
support of `np.random.randint(1, dim - 2)` — the upper bound is
exclusive — refuting "both 1 and dim-2 are possible values". -/
theorem C8_counterexample :
    nonFixedDim 2 6 6 (drawFixedX 0) = 10 ∧
    ¬ npRandintSupport 1 ((10 : ℤ) - 2) ((10 : ℤ) - 2) :=
  ⟨by decide, by unfold npRandintSupport; omega⟩

/-- C8 (amended): the non-fixed endpoint coordinate is drawn uniformly
from the inclusive range `[1, dim - 3]` (numpy's `randint(1, dim - 2)`
has an exclusive upper bound): 1 and `dim - 3` are possible, while 0,
`dim - 2` and the border `dim - 1` are never drawn; the orientation is
fixed-x exactly when the uniform draw is below 1/2, which holds for
exactly half of the draws (`n` of `2n` equispaced draws in `[0, 1)`). -/
theorem C8_endpoint_draws (dim : ℕ) (hdim : 4 ≤ dim) :
    (∀ v : ℤ, npRandintSupport 1 ((dim : ℤ) - 2) v ↔ 1 ≤ v ∧ v ≤ (dim : ℤ) - 3) ∧
    npRandintSupport 1 ((dim : ℤ) - 2) 1 ∧
    npRandintSupport 1 ((dim : ℤ) - 2) ((dim : ℤ) - 3) ∧
    ¬ npRandintSupport 1 ((dim : ℤ) - 2) 0 ∧
    ¬ npRandintSupport 1 ((dim : ℤ) - 2) ((dim : ℤ) - 2) ∧
    ¬ npRandintSupport 1 ((dim : ℤ) - 2) ((dim : ℤ) - 1) ∧
    (∀ r : ℚ, drawFixedX r = true ↔ r < 1 / 2) ∧
    (∀ n : ℕ, 0 < n →
      ((Finset.range (2 * n)).filter
        (fun k : ℕ => drawFixedX ((k : ℚ) / ((2 * n : ℕ) : ℚ)) = true)).card = n) := by
  have hd : (4 : ℤ) ≤ (dim : ℤ) := by exact_mod_cast hdim
  refine ⟨?_, ?_, ?_, ?_, ?_, ?_, ?_, ?_⟩
  · intro v
    unfold npRandintSupport
    omega
  · unfold npRandintSupport
    omega
  · unfold npRandintSupport
    omega
  · unfold npRandintSupport
    omega
  · unfold npRandintSupport
    omega
  · unfold npRandintSupport
    omega
  · intro r
    simp [drawFixedX]
  · intro n hn
    have h2 : (0 : ℚ) < ((2 * n : ℕ) : ℚ) := by exact_mod_cast (by omega : 0 < 2 * n)
    have hcond : ∀ k : ℕ, (drawFixedX ((k : ℚ) / ((2 * n : ℕ) : ℚ)) = true) ↔ k < n := by
      intro k
      simp only [drawFixedX, decide_eq_true_eq]
      rw [div_lt_iff h2, show (1 : ℚ) / 2 * ((2 * n : ℕ) : ℚ) = (n : ℚ) by push_cast; ring]
      exact_mod_cast Iff.rfl
    have hf : (Finset.range (2 * n)).filter
        (fun k : ℕ => drawFixedX ((k : ℚ) / ((2 * n : ℕ) : ℚ)) = true) = Finset.range n := by
      ext k
      simp only [Finset.mem_filter, Finset.mem_range, hcond]
      omega
    rw [hf, Finset.card_range]

/-- C8, witness: the amended theorem at the concrete padded dimension
10: the support is `[1, 7]`. -/
theorem C8_endpoint_draws_witness :
    4 ≤ 10 ∧
    ((∀ v : ℤ, npRandintSupport 1 ((10 : ℤ) - 2) v ↔ 1 ≤ v ∧ v ≤ (10 : ℤ) - 3) ∧
     npRandintSupport 1 ((10 : ℤ) - 2) 1 ∧
     npRandintSupport 1 ((10 : ℤ) - 2) ((10 : ℤ) - 3) ∧
     ¬ npRandintSupport 1 ((10 : ℤ) - 2) 0 ∧
     ¬ npRandintSupport 1 ((10 : ℤ) - 2) ((10 : ℤ) - 2) ∧
     ¬ npRandintSupport 1 ((10 : ℤ) - 2) ((10 : ℤ) - 1) ∧
     (∀ r : ℚ, drawFixedX r = true ↔ r < 1 / 2) ∧
     (∀ n : ℕ, 0 < n →
       ((Finset.range (2 * n)).filter
         (fun k : ℕ => drawFixedX ((k : ℚ) / ((2 * n : ℕ) : ℚ)) = true)).card = n)) :=
  ⟨by decide, C8_endpoint_draws 10 (by decide)⟩

/-! ### C10: the transposed meshgrid and numpy broadcasting -/

theorem matAdd_none_of_rows (A B : Mat) (hne : A.rows ≠ B.rows)
    (ha : A.rows ≠ 1) (hb : B.rows ≠ 1) : matAdd A B = none := by
  unfold matAdd bcLen
  rw [if_neg hne, if_neg ha, if_neg hb]

/-- The result of a same-shape broadcast addition. -/
def matAddVals (A B : Mat) : Mat :=
  ⟨A.rows, A.cols, fun i j =>
    A.val (bidx A.rows i) (bidx A.cols j) + B.val (bidx B.rows i) (bidx B.cols j)⟩

theorem matAdd_same (A B : Mat) (hr : A.rows = B.rows) (hc : A.cols = B.cols) :
    matAdd A B = some (matAddVals A B) := by
  unfold matAdd bcLen matAddVals
  rw [if_pos hr, if_pos hc]

/-- C10 (amended): the meshgrid is built with transposed axis order
relative to the displacement grids, so for a non-square padded slice
with both dimensions at least 2 (once the earlier random/indexing steps
succeed and the component count is 2) the addition
`x + flow_x` fails with a numpy broadcast error and no flow fields are
returned; for a square padded slice the addition never raises a
broadcast error. A padded dimension equal to 1 broadcasts against the
transposed meshgrid, so generation can also succeed on such non-square
shapes (see the counterexample). -/
theorem C10_broadcast (normed : ℤ → ℤ → ℚ × ℚ) (s a0 a1 : ℕ) (rF : ℚ) (ra rb : ℤ) :
    (a0 + 2 * s ≠ a1 + 2 * s → 2 ≤ a0 + 2 * s → 2 ≤ a1 + 2 * s →
      ¬ (((nonFixedDim s a0 a1 (drawFixedX rF) : ℕ) : ℤ) - 2 ≤ 1) →
      ((deformLinePts s a0 a1 rF ra rb).any (fun p =>
        !(decide (0 ≤ p.1) && decide (p.1 < ((a0 + 2 * s : ℕ) : ℤ)) &&
          decide (0 ≤ p.2) && decide (p.2 < ((a1 + 2 * s : ℕ) : ℤ)))) = false) →
      deformComplementCount s a0 a1 rF ra rb = 2 →
      prepareDeformSlice normed s a0 a1 rF ra rb = .error .broadcastMismatch) ∧
    (a0 + 2 * s = a1 + 2 * s →
      prepareDeformSlice normed s a0 a1 rF ra rb ≠ .error .broadcastMismatch) := by
  constructor
  · intro hne h2a h2b hrand hidx hC
    unfold prepareDeformSlice
    rw [if_neg hrand, if_neg (by rw [hidx]; decide), if_neg (by simp [hC])]
    rw [matAdd_none_of_rows (meshX (a0 + 2 * s) (a1 + 2 * s))
      (deformDispX normed s a0 a1 rF ra rb) (fun h => hne h.symm)
      (by show a1 + 2 * s ≠ 1; omega) (by show a0 + 2 * s ≠ 1; omega)]
  · intro heq
    unfold prepareDeformSlice
    by_cases h1 : (((nonFixedDim s a0 a1 (drawFixedX rF) : ℕ) : ℤ) - 2 ≤ 1)
    · rw [if_pos h1]
      simp
    · rw [if_neg h1]
      rcases h2 : (deformLinePts s a0 a1 rF ra rb).any (fun p =>
          !(decide (0 ≤ p.1) && decide (p.1 < ((a0 + 2 * s : ℕ) : ℤ)) &&
            decide (0 ≤ p.2) && decide (p.2 < ((a1 + 2 * s : ℕ) : ℤ)))) with _ | _
      · rw [if_neg (by decide)]
        by_cases h3 : deformComplementCount s a0 a1 rF ra rb ≠ 2
        · rw [if_pos h3]
          simp
        · rw [if_neg h3]
          rw [matAdd_same (meshX (a0 + 2 * s) (a1 + 2 * s))
                (deformDispX normed s a0 a1 rF ra rb) heq.symm heq,
              matAdd_same (meshY (a0 + 2 * s) (a1 + 2 * s))
                (deformDispY normed s a0 a1 rF ra rb) heq.symm heq]
          simp
      · rw [if_pos rfl]
        simp

set_option maxRecDepth 10000 in
/-- C10, witness: the amended theorem at the non-square padded shape
4×6 (strength 0, vertical line at column 1, exactly two components):
the generator fails with the broadcast error. -/
theorem C10_broadcast_witness :
    ((4 + 2 * 0 : ℕ) ≠ (6 + 2 * 0 : ℕ) ∧ deformComplementCount 0 4 6 0 1 1 = 2) ∧
    prepareDeformSlice ratUnit 0 4 6 0 1 1 = .error .broadcastMismatch :=
  ⟨⟨by decide, by decide⟩,
   (C10_broadcast ratUnit 0 4 6 0 1 1).1 (by decide) (by decide) (by decide)
     (by decide) (by decide) (by decide)⟩

/-- C10, counterexample: the non-square padded shape 1×5 (strength 0,
line from (0,1) to (0,2)) broadcasts `(5,1) + (1,5)` without error, so
flow-field generation returns successfully on a non-square padded
slice, refuting "for any non-square padded slice shape adding the
meshgrid to the displacement field fails with a shape-mismatch
error". -/
theorem C10_counterexample :
    exIsOk (prepareDeformSlice ratUnit 0 1 5 0 1 2) = true ∧
    (1 + 2 * 0 : ℕ) ≠ (5 + 2 * 0 : ℕ) :=
  ⟨rfl, by decide⟩

/-! ### C7: strength zero -/

/-- The row-major flattening of the identity meshgrid x-component for a
square `n × n` slice: entry `k` is the column index `k % n`. -/
def identityFlowX (n : ℕ) : List ℚ :=
  (List.range (n * n)).map (fun k => ((k % n : ℕ) : ℚ))

/-- The row-major flattening of the identity meshgrid y-component:
entry `k` is the row index `k / n`. -/
def identityFlowY (n : ℕ) : List ℚ :=
  (List.range (n * n)).map (fun k => ((k / n : ℕ) : ℚ))

theorem Mat.flatten_eq_map (A : Mat) (n : ℕ) (f : ℕ → ℚ)
    (hr : A.rows = n) (hc : A.cols = n)
    (hval : ∀ k, k < n * n → A.val (k / n) (k % n) = f k) :
    A.flatten = (List.range (n * n)).map f := by
  rcases A with ⟨r, c, v⟩
  simp only at hr hc
  subst hr
  subst hc
  unfold Mat.flatten
  exact List.map_congr_left (fun k hk => hval k (List.mem_range.mp hk))

theorem bgGet_dilStep (h w : ℕ) (g : List (List Bool)) (i j : ℕ)
    (hi : i < h) (hj : j < w) :
    bgGet (dilStep h w g) i j
      = (bgGet g i j || bgGet g (i + 1) j || bgGet g i (j + 1) ||
         (decide (1 ≤ i) && bgGet g (i - 1) j) || (decide (1 ≤ j) && bgGet g i (j - 1))) := by
  have hrow : (dilStep h w g).getD i []
      = (List.range w).map (fun q =>
          bgGet g i q || bgGet g (i + 1) q || bgGet g i (q + 1) ||
            (decide (1 ≤ i) && bgGet g (i - 1) q) || (decide (1 ≤ q) && bgGet g i (q - 1))) := by
    unfold dilStep
    rw [List.getD_eq_getElem _ _ (by simpa using hi), List.getElem_map, List.getElem_range]
  unfold bgGet
  rw [hrow, List.getD_eq_getElem _ _ (by simpa using hj), List.getElem_map, List.getElem_range]
  rfl

theorem dilStep_mono_true (h w : ℕ) (g : List (List Bool)) (i j : ℕ)
    (hi : i < h) (hj : j < w) (hg : bgGet g i j = true) :
    bgGet (dilStep h w g) i j = true := by
  rw [bgGet_dilStep h w g i j hi hj, hg]
  simp

theorem dilateN_mono_true (k h w : ℕ) (g : List (List Bool)) (i j : ℕ)
    (hi : i < h) (hj : j < w) (hg : bgGet g i j = true) :
    bgGet (dilateN k h w g) i j = true := by
  induction k generalizing g with
  | zero => exact hg
  | succ m ih =>
      have hstep : dilateN (m + 1) h w g = dilateN m h w (dilStep h w g) := by
        unfold dilateN
        rw [Function.iterate_succ_apply]
      rw [hstep]
      exact ih (dilStep h w g) (dilStep_mono_true h w g i j hi hj hg)

/-- C7 (amended): with `deformation_strength = 0` on a square slice
(padded shape `n × n`, `n ≥ 4`, component count 2), the flow fields are
exactly the flattened identity meshgrid — the displacement
`±0 · normal` vanishes for every normalisation — so an order-0
resample at those coordinates is the identity; the line mask, however,
is NOT zero width: it is the rasterised line dilated 10 times
(`binary_dilation(..., iterations=10)` runs regardless of the
deformation strength; the counterexample exhibits a masked off-line
pixel). -/
theorem C7_strength_zero (normed : ℤ → ℤ → ℚ × ℚ) (n : ℕ) (rF : ℚ) (ra rb : ℤ)
    (hn : 4 ≤ n)
    (hidx : (deformLinePts 0 n n rF ra rb).any (fun p =>
      !(decide (0 ≤ p.1) && decide (p.1 < ((n + 2 * 0 : ℕ) : ℤ)) &&
        decide (0 ≤ p.2) && decide (p.2 < ((n + 2 * 0 : ℕ) : ℤ)))) = false)
    (hcount : deformComplementCount 0 n n rF ra rb = 2) :
    prepareDeformSlice normed 0 n n rF ra rb
      = .ok { flowX := identityFlowX n, flowY := identityFlowY n,
              mask := dilateN 10 n n (bgOfFun n n (deformLineMask 0 n n rF ra rb)) } ∧
    (∀ (kernel : ℕ → (ℤ → ℤ → ℚ) → ℚ → ℚ → ℚ) (img : ℤ → ℤ → ℚ) (i j : ℕ),
      i < n → j < n →
      mapCoordSample kernel 0 n n img ((identityFlowY n).getD (i * n + j) 0)
        ((identityFlowX n).getD (i * n + j) 0) = img i j) := by
  constructor
  · have hnf : nonFixedDim 0 n n (drawFixedX rF) = n := by
      unfold nonFixedDim
      cases drawFixedX rF <;> rfl
    have hr1 : ¬ (((nonFixedDim 0 n n (drawFixedX rF) : ℕ) : ℤ) - 2 ≤ 1) := by
      rw [hnf]
      omega
    have h1 : ¬ (n + 2 * 0 = 1) := by omega
    have hfx : (matAddVals (meshX (n + 2 * 0) (n + 2 * 0))
        (deformDispX normed 0 n n rF ra rb)).flatten = identityFlowX n := by
      apply Mat.flatten_eq_map _ n _ rfl rfl
      intro k hk
      show ((bidx (n + 2 * 0) (k % n) : ℕ) : ℚ)
          + (deformDispX normed 0 n n rF ra rb).val
              (bidx (n + 2 * 0) (k / n)) (bidx (n + 2 * 0) (k % n))
        = ((k % n : ℕ) : ℚ)
      unfold deformDispX bidx
      simp only [if_neg h1]
      split_ifs <;> simp
    have hfy : (matAddVals (meshY (n + 2 * 0) (n + 2 * 0))
        (deformDispY normed 0 n n rF ra rb)).flatten = identityFlowY n := by
      apply Mat.flatten_eq_map _ n _ rfl rfl
      intro k hk
      show ((bidx (n + 2 * 0) (k / n) : ℕ) : ℚ)
          + (deformDispY normed 0 n n rF ra rb).val
              (bidx (n + 2 * 0) (k / n)) (bidx (n + 2 * 0) (k % n))
        = ((k / n : ℕ) : ℚ)
      unfold deformDispY bidx
      simp only [if_neg h1]
      split_ifs <;> simp
    unfold prepareDeformSlice
    rw [if_neg hr1, if_neg (by rw [hidx]; decide), if_neg (by simp [hcount]),
        matAdd_same (meshX (n + 2 * 0) (n + 2 * 0))
          (deformDispX normed 0 n n rF ra rb) rfl rfl,
        matAdd_same (meshY (n + 2 * 0) (n + 2 * 0))
          (deformDispY normed 0 n n rF ra rb) rfl rfl]
    exact congrArg Except.ok (show
      Transform.mk
        (matAddVals (meshX (n + 2 * 0) (n + 2 * 0))
          (deformDispX normed 0 n n rF ra rb)).flatten
        (matAddVals (meshY (n + 2 * 0) (n + 2 * 0))
          (deformDispY normed 0 n n rF ra rb)).flatten
        (dilateN 10 (n + 2 * 0) (n + 2 * 0)
          (bgOfFun (n + 2 * 0) (n + 2 * 0) (deformLineMask 0 n n rF ra rb)))
      = Transform.mk (identityFlowX n) (identityFlowY n)
          (dilateN 10 n n (bgOfFun n n (deformLineMask 0 n n rF ra rb)))
      from by rw [hfx, hfy]; rfl)
  · intro kernel img i j hi hj
    have hlen : i * n + j < n * n := by
      have h2 : (i + 1) * n ≤ n * n := Nat.mul_le_mul_right n hi
      have h3 : i * n + j < (i + 1) * n := by
        have : (i + 1) * n = i * n + n := by ring
        omega
      omega
    have hY : (identityFlowY n).getD (i * n + j) 0 = ((i : ℕ) : ℚ) := by
      unfold identityFlowY
      rw [List.getD_eq_getElem _ _ (by simpa using hlen)]
      simp only [List.getElem_map, List.getElem_range]
      congr 1
      rw [Nat.add_comm, Nat.add_mul_div_right j i (by omega : 0 < n),
        Nat.div_eq_of_lt hj]
      omega
    have hX : (identityFlowX n).getD (i * n + j) 0 = ((j : ℕ) : ℚ) := by
      unfold identityFlowX
      rw [List.getD_eq_getElem _ _ (by simpa using hlen)]
      simp only [List.getElem_map, List.getElem_range]
      congr 1
      rw [Nat.add_comm, Nat.add_mul_mod_self_right]
      exact Nat.mod_eq_of_lt hj
    have hb : (0 : ℚ) ≤ (i : ℚ) ∧ (i : ℚ) ≤ (n : ℚ) - 1 ∧
        (0 : ℚ) ≤ (j : ℚ) ∧ (j : ℚ) ≤ (n : ℚ) - 1 := by
      refine ⟨by positivity, ?_, by positivity, ?_⟩
      · rw [le_sub_iff_add_le]
        exact_mod_cast hi
      · rw [le_sub_iff_add_le]
        exact_mod_cast hj
    rw [hX, hY]
    unfold mapCoordSample
    rw [if_pos hb, if_pos rfl, round_natCast, round_natCast]

set_option maxRecDepth 10000 in
/-- C7, witness: the amended theorem at the 4×4 slice with strength 0,
fixed-x orientation and both endpoint draws 1 (a vertical line at
column 1): the flow fields are the flattened identity meshgrid and the
mask is the 10-fold dilation of the line. -/
theorem C7_strength_zero_witness :
    (4 ≤ 4 ∧ deformComplementCount 0 4 4 0 1 1 = 2) ∧
    (prepareDeformSlice ratUnit 0 4 4 0 1 1
      = .ok { flowX := identityFlowX 4, flowY := identityFlowY 4,
              mask := dilateN 10 4 4 (bgOfFun 4 4 (deformLineMask 0 4 4 0 1 1)) } ∧
    (∀ (kernel : ℕ → (ℤ → ℤ → ℚ) → ℚ → ℚ → ℚ) (img : ℤ → ℤ → ℚ) (i j : ℕ),
      i < 4 → j < 4 →
      mapCoordSample kernel 0 4 4 img ((identityFlowY 4).getD (i * 4 + j) 0)
        ((identityFlowX 4).getD (i * 4 + j) 0) = img i j)) :=
  ⟨⟨by decide, by decide⟩,
   C7_strength_zero ratUnit 4 0 1 1 (by decide) (by decide) (by decide)⟩

set_option maxRecDepth 10000 in
/-- C7, counterexample: in the same strength-0 run, the returned line
mask is true at the pixel (0, 3), which is not a pixel of the
rasterised line (the line is the column 1) — the mask is not
zero-width: `binary_dilation(..., iterations=10)` widens it regardless
of the deformation strength, refuting "a line mask that covers only the
rasterized line pixels themselves". -/
theorem C7_counterexample :
    (∃ t, prepareDeformSlice ratUnit 0 4 4 0 1 1 = .ok t ∧ bgGet t.mask 0 3 = true) ∧
    ¬ (((0 : ℤ), (3 : ℤ)) ∈ deformLinePts 0 4 4 0 1 1) := by
  constructor
  · refine ⟨_, rfl, ?_⟩
    show bgGet (dilateN 10 4 4 (bgOfFun 4 4 (deformLineMask 0 4 4 0 1 1))) 0 3 = true
    have hbase : bgGet (dilateN 2 4 4 (bgOfFun 4 4 (deformLineMask 0 4 4 0 1 1))) 0 3
        = true := by decide
    have hsplit : dilateN 10 4 4 (bgOfFun 4 4 (deformLineMask 0 4 4 0 1 1))
        = dilateN 8 4 4 (dilateN 2 4 4 (bgOfFun 4 4 (deformLineMask 0 4 4 0 1 1))) := by
      unfold dilateN
      rw [← Function.iterate_add_apply]
    rw [hsplit]
    exact dilateN_mono_true 8 4 4 _ 0 3 (by decide) (by decide) hbase
  · decide

/-! ### C5: the deformed-slice step of `process` -/

/-- C5: for a slice planned as deformed, with its precomputed transform
present and shape-consistent, the `process` branch resamples the
squeezed section at the transform's absolute flow coordinates using
interpolation order 3 exactly when the RAW spec's `interpolatable` flag
is set and order 0 otherwise; a sample whose coordinate lies outside
the section extent is filled with the constant 0 (`mode='constant'`);
and after the step every pixel under the dilated line mask is exactly
0. -/
theorem C5_deformed_slice (kernel : ℕ → (ℤ → ℤ → ℚ) → ℚ → ℚ → ℚ) (cfg : Config)
    (transforms : ℕ → Option Transform) (artifact : ℕ → ArtifactBatch)
    (v : RawVol) (c : ℕ) (t : Transform)
    (ht : transforms c = some t)
    (hflen : t.flowX.length = (secDims cfg.axis v.shape).1 * (secDims cfg.axis v.shape).2 ∧
             t.flowY.length = (secDims cfg.axis v.shape).1 * (secDims cfg.axis v.shape).2)
    (hmask : t.mask.length = (secDims cfg.axis v.shape).1 ∧
             t.mask.all (fun row => row.length = (secDims cfg.axis v.shape).2) = true) :
    applyAug kernel cfg transforms artifact v (c, "deformed_slice")
      = .ok (setSection cfg.axis c v (fun p =>
          deformedSection kernel (interpOrder cfg)
            (secDims cfg.axis v.shape).1 (secDims cfg.axis v.shape).2
            (secImg cfg.axis c v) t (toSec cfg.axis p).1 (toSec cfg.axis p).2)) ∧
    interpOrder cfg = (if cfg.interpolatable then 3 else 0) ∧
    (∀ (h w : ℕ) (img : ℤ → ℤ → ℚ) (i j : ℕ),
      bgGet t.mask i j = true →
      deformedSection kernel (interpOrder cfg) h w img t i j = 0) ∧
    (∀ (h w : ℕ) (img : ℤ → ℤ → ℚ) (i j : ℕ),
      bgGet t.mask i j = false →
      deformedSection kernel (interpOrder cfg) h w img t i j
        = mapCoordSample kernel (interpOrder cfg) h w img
            (t.flowY.getD (i * w + j) 0) (t.flowX.getD (i * w + j) 0)) ∧
    (∀ (order h w : ℕ) (img : ℤ → ℤ → ℚ) (cy cx : ℚ),
      ¬ (0 ≤ cy ∧ cy ≤ (h : ℚ) - 1 ∧ 0 ≤ cx ∧ cx ≤ (w : ℚ) - 1) →
      mapCoordSample kernel order h w img cy cx = 0) := by
  refine ⟨?_, rfl, ?_, ?_, ?_⟩
  · unfold applyAug
    simp only [ht]
    rw [if_neg (by decide : ¬("deformed_slice" : String) = "zero_out"),
        if_neg (by decide : ¬("deformed_slice" : String) = "low_contrast"),
        if_neg (by decide : ¬("deformed_slice" : String) = "artifact"),
        if_pos trivial, if_pos hflen, if_pos hmask]
  · intro h w img i j hm
    unfold deformedSection
    rw [hm]
    simp
  · intro h w img i j hm
    unfold deformedSection
    rw [hm]
    simp
  · intro order h w img cy cx hob
    unfold mapCoordSample
    rw [if_neg hob]

/-- A transform fixture for the C5 witness: identity flows on 4×4 with
the single mask pixel (0, 0). -/
def tC5 : Transform :=
  { flowX := tC1.flowX, flowY := tC1.flowY,
    mask := [[true, false, false, false], [false, false, false, false],
             [false, false, false, false], [false, false, false, false]] }

/-- C5, witness: the theorem applied to the concrete 1×4×4 volume with
the transform `tC5`. -/
theorem C5_deformed_slice_witness :
    ((fun _ : ℕ => some tC5) 0 = some tC5 ∧
     tC5.flowX.length = (secDims cfgC1.axis vC1.shape).1 * (secDims cfgC1.axis vC1.shape).2 ∧
     tC5.mask.length = (secDims cfgC1.axis vC1.shape).1) ∧
    (applyAug trivialKernel cfgC1 (fun _ => some tC5) artifactUnused vC1 (0, "deformed_slice")
      = .ok (setSection cfgC1.axis 0 vC1 (fun p =>
          deformedSection trivialKernel (interpOrder cfgC1)
            (secDims cfgC1.axis vC1.shape).1 (secDims cfgC1.axis vC1.shape).2
            (secImg cfgC1.axis 0 vC1) tC5 (toSec cfgC1.axis p).1 (toSec cfgC1.axis p).2)) ∧
    interpOrder cfgC1 = (if cfgC1.interpolatable then 3 else 0) ∧
    (∀ (h w : ℕ) (img : ℤ → ℤ → ℚ) (i j : ℕ),
      bgGet tC5.mask i j = true →
      deformedSection trivialKernel (interpOrder cfgC1) h w img tC5 i j = 0) ∧
    (∀ (h w : ℕ) (img : ℤ → ℤ → ℚ) (i j : ℕ),
      bgGet tC5.mask i j = false →
      deformedSection trivialKernel (interpOrder cfgC1) h w img tC5 i j
        = mapCoordSample trivialKernel (interpOrder cfgC1) h w img
            (tC5.flowY.getD (i * w + j) 0) (tC5.flowX.getD (i * w + j) 0)) ∧
    (∀ (order h w : ℕ) (img : ℤ → ℤ → ℚ) (cy cx : ℚ),
      ¬ (0 ≤ cy ∧ cy ≤ (h : ℚ) - 1 ∧ 0 ≤ cx ∧ cx ≤ (w : ℚ) - 1) →
      mapCoordSample trivialKernel order h w img cy cx = 0)) :=
  ⟨⟨rfl, by decide, by decide⟩,
   C5_deformed_slice trivialKernel cfgC1 (fun _ => some tC5) artifactUnused vC1 0 tC5
     rfl ⟨by decide, by decide⟩ ⟨by decide, by decide⟩⟩
